import Mathlib

/-!
# Verification of the AgentFlow CRM solver orchestration core

A shallow embedding of `backend/app/agentflow_solver.py`: the Planner /
Executor / Verifier / Memory components and the `AgentFlowCRMSolver.solve`
control loop, together with theorems checking the specification's claims
against this embedding.

Modelling conventions:
* Python strings are Lean `String`s; `str.strip`, `str.lower`, `in`,
  slicing and `str.split` are modelled character-exactly (including
  Python's vertical-tab and form-feed whitespace characters).
* Calls into the text-generation capability (`get_llm_response`) and the
  record store (`execute_query`) are external collaborators; they are
  modelled as oracle functions returning `Except String A`: `.error e`
  models the call raising an exception whose `str()` is `e`.  Prompt
  construction feeding those calls does not influence any modelled control
  decision, so generation-backed component methods are abstracted to one
  oracle call per invocation site (indexed by loop step where stateful).
* The regular-expression rewrites inside `Executor.execute_tool` are
  implemented as character scans reproducing the effect of the concrete
  patterns used by the source (`re.sub` of code fences, call-envelope
  extraction, `SELECT` search).
* Wall-clock time is abstracted: the loop's time-budget test
  `(time.time() - start_time) < max_time` is an oracle `Bool` per check;
  timestamps and `execution_time` values are not modelled.
* Python float arithmetic in the analytics tool is modelled over `Rat`
  (`round(x, 2)` is not applied); no claim depends on those values.
-/

namespace AgentFlow

/-! ## Python string primitives -/

/-- The backtick character. -/
def btick : Char := Char.ofNat 96

/-- The single-quote character. -/
def squote : Char := Char.ofNat 39

/-- Python's whitespace class for `\s` / `str.strip()` (ASCII). -/
def pyIsSpace (c : Char) : Bool :=
  c = ' ' || c = '\t' || c = '\n' || c = '\r' || c = '\x0b' || c = '\x0c'

/-- Python `str.strip()` with no arguments. -/
def pyStrip (s : String) : String :=
  String.mk (((s.toList.dropWhile pyIsSpace).reverse.dropWhile pyIsSpace).reverse)

/-- Python `str.rstrip(';')`. -/
def pyRstripSemi (s : String) : String :=
  String.mk ((s.toList.reverse.dropWhile (· = ';')).reverse)

/-- Decides whether `n` occurs as a contiguous sublist of `h`
(the character-level content of Python's `n in h` on strings). -/
def listContains (n : List Char) : List Char → Bool
  | [] => n.isEmpty
  | l@(_ :: t) => n.isPrefixOf l || listContains n t

/-- Python's `a in b` for strings. -/
def pyIn (a b : String) : Bool := listContains a.toList b.toList

/-- Split a character list at every separator position (Python
`str.split(sep)` semantics: empty pieces kept). -/
def splitListWhen (p : Char → Bool) : List Char → List (List Char)
  | [] => [[]]
  | c :: cs =>
    match splitListWhen p cs with
    | [] => [[]]
    | h :: t => if p c then [] :: h :: t else (c :: h) :: t

/-- Python `s.split("\n")` (model of `String.splitOn "\n"`). -/
def pySplitNl (s : String) : List String :=
  (splitListWhen (fun c => c = '\n') s.toList).map String.mk

/-- Python `str.split()` (no argument): split on whitespace runs,
dropping empty pieces. -/
def pySplitWs (s : String) : List String :=
  ((splitListWhen pyIsSpace s.toList).map String.mk).filter (· ≠ "")

/-- Python `str.lower()` (ASCII; model of `String.toLower`). -/
def pyLower (s : String) : String := String.mk (s.toList.map Char.toLower)

/-- Python `str.upper()` (ASCII; model of `String.toUpper`). -/
def pyUpper (s : String) : String := String.mk (s.toList.map Char.toUpper)

/-- Python `\w` word character (ASCII). -/
def pyIsWord (c : Char) : Bool := c.isAlphanum || c = '_'

/-- Python `s.startswith(p)` (list-level model of `String.startsWith`). -/
def pyStartsWith (s p : String) : Bool := p.toList.isPrefixOf s.toList

/-- Python `s[n:]` (list-level model of `String.drop`). -/
def pyDrop (s : String) (n : Nat) : String := String.mk (s.toList.drop n)

/-- One quote character of the class used by the envelope patterns. -/
def isQuote (c : Char) : Bool := c = squote || c = '"'

/-! ## Regex-effect helpers used by `Executor.execute_tool`

Each helper reproduces the effect of one concrete `re` call of the source
on its actual argument.  `scanSub m` models `re.sub(pat, '', s)` for a
pattern whose match at a position consumes `m`-many characters: the scan
emits one character and advances when no match starts at the current
position, and deletes the matched characters otherwise.  Every successful
match of the patterns below consumes at least one character, so a scan
step always shortens the list by at least one; recursion is therefore by
a fuel argument, initialised to the list length (which never runs out),
keeping all definitions reducible by the kernel. -/

def scanSubAux (m : List Char → Option Nat) : Nat → List Char → List Char
  | 0, _ => []
  | _, [] => []
  | fuel + 1, c :: cs =>
    match m (c :: cs) with
    | some n => scanSubAux m fuel (cs.drop (n - 1))
    | none => c :: scanSubAux m fuel cs

def scanSub (m : List Char → Option Nat) (l : List Char) : List Char :=
  scanSubAux m l.length l

/-- The three-backtick opening of a code fence. -/
def fence : List Char := [btick, btick, btick]

/-- Match length of `` ```\w*\s* `` starting at the head of `l`. -/
def fenceWordWsAt (l : List Char) : Option Nat :=
  if l.take 3 = fence then
    let wordLen := ((l.drop 3).takeWhile pyIsWord).length
    let wsLen := ((l.drop (3 + wordLen)).takeWhile (fun c => pyIsSpace c)).length
    some (3 + wordLen + wsLen)
  else none

/-- `re.sub(r'^```\w*\s*', '', s, flags=re.MULTILINE)`: at each line
start, delete a backtick fence followed by a word-run and a
whitespace-run.  The `Bool` argument tracks whether the current scan
position is a line start (string start or just after a newline; after a
deletion, the next position is a line start exactly when the last deleted
character was a newline). -/
def subOpenFenceAux : Nat → Bool → List Char → List Char
  | 0, _, _ => []
  | _, _, [] => []
  | fuel + 1, atStart, c :: cs =>
    match fenceWordWsAt (c :: cs) with
    | some n =>
      if atStart then
        subOpenFenceAux fuel (((c :: cs).take n).getLastD ' ' = '\n') (cs.drop (n - 1))
      else
        c :: subOpenFenceAux fuel (c = '\n') cs
    | none => c :: subOpenFenceAux fuel (c = '\n') cs

def subOpenFence (atStart : Bool) (l : List Char) : List Char :=
  subOpenFenceAux l.length atStart l

/-- Match length of `` \s*```\s*$ `` (multiline `$`) starting at the head
of `l`: a whitespace run, the fence, then the longest further whitespace
run that ends at the string end or just before a newline. -/
def closeFenceAt (l : List Char) : Option Nat :=
  let wsLen := (l.takeWhile (fun c => pyIsSpace c)).length
  let r := l.drop wsLen
  if r.take 3 = fence then
    let r2 := r.drop 3
    let run := r2.takeWhile (fun c => pyIsSpace c)
    if r2.length = run.length then
      -- the trailing whitespace reaches the end of the string: `$` matches there
      some l.length
    else
      -- `$` must match just before a newline inside the whitespace run
      let tailNoNl := run.reverse.takeWhile (· ≠ '\n')
      if tailNoNl.length = run.length then none
      else some (wsLen + 3 + (run.length - tailNoNl.length - 1))
  else none

/-- `re.sub(r'\s*```\s*$', '', s, flags=re.MULTILINE)`. -/
def subCloseFence (l : List Char) : List Char := scanSub closeFenceAt l

/-- `re.sub(r'```', '', s)`: delete every remaining backtick triple. -/
def subAllFence (l : List Char) : List Char :=
  scanSub (fun l => if l.take 3 = fence then some 3 else none) l

/-- `re.sub(r'```\w*\s*', '', s)` (no anchors; analytics branch). -/
def subFenceWordWs (l : List Char) : List Char := scanSub fenceWordWsAt l

/-- `re.sub(r'\s*```', '', s)` (analytics branch): a whitespace run
directly followed by a fence. -/
def subWsFence (l : List Char) : List Char :=
  scanSub
    (fun l =>
      let wsLen := (l.takeWhile (fun c => pyIsSpace c)).length
      if (l.drop wsLen).take 3 = fence then some (wsLen + 3) else none)
    l

/-- Case-insensitive match of the lowercase word `key` at the head of
`l`. -/
def ciKeyAt (key : List Char) (l : List Char) : Bool :=
  (l.take key.length).map Char.toLower = key

/-- Try `key\s*=\s*['\"](.+?)['\"]` at the head of `l` (DOTALL, lazy
group): returns the first capture group.  The lazy `.+?` takes one
character unconditionally and then the shortest extension reaching a
quote character. -/
def tryLazyEnvelopeAt (key : List Char) (l : List Char) : Option (List Char) :=
  if ciKeyAt key l then
    let r := (l.drop key.length).dropWhile (fun c => pyIsSpace c)
    match r with
    | '=' :: r2 =>
      match r2.dropWhile (fun c => pyIsSpace c) with
      | q :: r4 =>
        if isQuote q then
          match r4 with
          | [] => none
          | c1 :: r5 =>
            if (r5.any fun c => isQuote c) then
              some (c1 :: r5.takeWhile (fun c => !isQuote c))
            else none
        else none
      | [] => none
    | _ => none
  else none

/-- `re.search(key + r"\s*=\s*['\"](.+?)['\"]", s, re.DOTALL|re.IGNORECASE)`:
leftmost occurrence wins. -/
def searchLazyEnvelope (key : List Char) : List Char → Option (List Char)
  | [] => none
  | l@(_ :: t) =>
    match tryLazyEnvelopeAt key l with
    | some g => some g
    | none => searchLazyEnvelope key t

/-- Try `key\s*=\s*['\"](\w+)['\"]` at the head of `l`: the group is a
nonempty word-run that must be directly followed by a quote. -/
def tryWordEnvelopeAt (key : List Char) (l : List Char) : Option (List Char) :=
  if ciKeyAt key l then
    let r := (l.drop key.length).dropWhile (fun c => pyIsSpace c)
    match r with
    | '=' :: r2 =>
      match r2.dropWhile (fun c => pyIsSpace c) with
      | q :: r4 =>
        if isQuote q then
          let w := r4.takeWhile pyIsWord
          match r4.drop w.length with
          | q2 :: _ => if w ≠ [] ∧ isQuote q2 then some w else none
          | [] => none
        else none
      | [] => none
    | _ => none
  else none

/-- `re.search(key + r"\s*=\s*['\"](\w+)['\"]", s, re.IGNORECASE)`. -/
def searchWordEnvelope (key : List Char) : List Char → Option (List Char)
  | [] => none
  | l@(_ :: t) =>
    match tryWordEnvelopeAt key l with
    | some g => some g
    | none => searchWordEnvelope key t

/-- Does position `j` of `l` satisfy `(?:;|$)` (no MULTILINE: `$` is the
string end or just before a final newline)? -/
def semiOrEnd (l : List Char) (j : Nat) : Bool :=
  j = l.length ∨ (l.drop j).take 1 = [';'] ∨ (j + 1 = l.length ∧ l.getLastD ' ' = '\n')

/-- Smallest `k ≥ 1` with `semiOrEnd l (p + k)`, if any (`fuel` bounds the
search; callers pass the list length, which always suffices because
`p + k = l.length` qualifies). -/
def minStopFrom (l : List Char) (p : Nat) : Nat → Nat → Option Nat
  | 0, _ => none
  | fuel + 1, k =>
    if p + k > l.length then none
    else if semiOrEnd l (p + k) then some k
    else minStopFrom l p fuel (k + 1)

/-- Try `(SELECT\s+.+?)(?:;|$)` (DOTALL) at the head of `l`: `SELECT`
case-insensitively, a greedy whitespace run (shortened only if nothing is
left for the lazy `.+?`), then the shortest extension reaching a `;` or
the string end.  Returns the capture group. -/
def trySelectAt (l : List Char) : Option (List Char) :=
  if ciKeyAt "select".toList l then
    let w := ((l.drop 6).takeWhile (fun c => pyIsSpace c)).length
    if w = 0 then none
    else
      match minStopFrom l (6 + w) (l.length + 1) 1 with
      | some k => some (l.take (6 + w + k))
      | none =>
        -- the whitespace run reaches the string end: backtrack `\s+` by one
        -- so that the lazy `.+?` can consume the final whitespace character
        if w ≥ 2 ∧ 6 + w = l.length then some l else none
  else none

/-- `re.search(r'(SELECT\s+.+?)(?:;|$)', s, re.DOTALL | re.IGNORECASE)`. -/
def searchSelect : List Char → Option (List Char)
  | [] => none
  | l@(_ :: t) =>
    match trySelectAt l with
    | some g => some g
    | none => searchSelect t

/-- Python `s.replace(pat, rep)` at character level (non-overlapping,
left to right); callers only use nonempty `pat`. -/
def listReplaceAux (pat rep : List Char) : Nat → List Char → List Char
  | 0, _ => []
  | _, [] => []
  | fuel + 1, c :: cs =>
    if pat.isPrefixOf (c :: cs) then rep ++ listReplaceAux pat rep fuel (cs.drop (pat.length - 1))
    else c :: listReplaceAux pat rep fuel cs

def listReplace (pat rep : List Char) (l : List Char) : List Char :=
  listReplaceAux pat rep l.length l

/-! ## Data model -/

/-- A record-store row, with the integer columns the analytics tool reads
(`payload` stands for all remaining column content). -/
structure Row where
  total : Int := 0
  converted : Int := 0
  won : Int := 0
  closed : Int := 0
  payload : String := ""
  deriving Repr, DecidableEq

/-- The `value` entry of an analytics result (Python float arithmetic
modelled over `Rat`; `round(x, 2)` not applied). -/
inductive PyVal where
  /-- `results[0]` (pipeline_value with a row). -/
  | row (r : Row)
  /-- the literal dict with `total_value` 0 and `deal_count` 0. -/
  | pipelineDefault
  /-- conversion-rate dict merged with `results[0]`. -/
  | convRate (rate : Rat) (r : Row)
  /-- win-rate dict merged with `results[0]`. -/
  | winRate (rate : Rat) (r : Row)
  deriving Repr, DecidableEq

/-- A tool-result dictionary: every key any tool or the solver may set,
each `Option` modelling presence of the key.  `success` is the truth
value of the `success` entry (always set by `execute_tool` and by the
solver's failed-selection record). -/
structure PyResult where
  success : Bool
  error : Option String := none
  query : Option String := none
  result_count : Option Nat := none
  results : Option (List Row) := none
  metric : Option String := none
  value : Option PyVal := none
  task : Option String := none
  reasoning : Option String := none
  data : Option String := none
  deriving Repr, DecidableEq

/-- One entry of `Memory.actions` (`Memory.add_action`); the creation
timestamp is not modelled. -/
structure ActionRec where
  step : Nat
  tool : String
  sub_goal : String
  command : String
  result : PyResult
  deriving Repr, DecidableEq

/-! ## Planner -/

/-- `Planner.is_query_ambiguous`: the fixed content-free phrases. -/
def vague_patterns : List String :=
  ["what does this mean", "what is this", "explain this", "help me understand",
   "i don't get it", "what happened", "huh", "???"]

/-- `Planner.is_query_ambiguous`: the fixed CRM domain keywords. -/
def crm_keywords : List String :=
  ["lead", "contact", "account", "opportunity", "deal", "pipeline",
   "revenue", "sales", "activity", "campaign", "top", "show", "list",
   "find", "get", "what", "how many", "total", "count", "amount"]

/-- The pure verdict part of `Planner.is_query_ambiguous`. -/
def is_vague_query (query : String) : Bool :=
  let query_lower := pyStrip (pyLower query)
  let has_crm_keyword := crm_keywords.any (fun kw => pyIn kw query_lower)
  let is_short := (pySplitWs query).length < 5
  let matches_vague := vague_patterns.any (fun p => pyIn p query_lower)
  matches_vague && is_short && !has_crm_keyword

/-- `Planner.is_query_ambiguous(query, analysis)`.  When the query is
vague it calls `_generate_clarifying_response`, i.e. the generation
capability (`clarifyGen`); that call is not exception-guarded, so a
raising oracle propagates. -/
def is_query_ambiguous (clarifyGen : Except String String) (query : String)
    (_analysis : String) : Except String (Bool × String) :=
  if is_vague_query query then
    match clarifyGen with
    | .ok s => .ok (true, s)
    | .error e => .error e
  else .ok (false, "")

/-- Line loop of `Planner.extract_context_subgoal_and_tool`: later labeled
lines overwrite earlier ones. -/
def extractCSTLoop : List String → String × String × Option String → String × String × Option String
  | [], acc => acc
  | l :: rest, (c, s, t) =>
    let line := pyStrip l
    if pyStartsWith line "CONTEXT:" then extractCSTLoop rest (pyStrip (pyDrop line 8), s, t)
    else if pyStartsWith line "SUB_GOAL:" then extractCSTLoop rest (c, pyStrip (pyDrop line 9), t)
    else if pyStartsWith line "TOOL:" then extractCSTLoop rest (c, s, some (pyStrip (pyDrop line 5)))
    else extractCSTLoop rest (c, s, t)

/-- The explicit no-tool sentinels normalised to `None`. -/
def none_sentinels : List String := ["none", "n/a", "no tool", "no_tool", ""]

/-- The fuzzy match of an unrecognized tool name against the registered
names: the first registered name such that one lowercased string contains
the other. -/
def fuzzyResolve (tools_available : List String) (t : String) : Option String :=
  tools_available.find?
    (fun avail => pyIn (pyLower avail) (pyLower t) || pyIn (pyLower t) (pyLower avail))

/-- Normalisation of "None"-like tool names (only a nonempty string is
truthy). -/
def normalizeToolName (tool0 : Option String) : Option String :=
  match tool0 with
  | some t => if t ≠ "" ∧ pyLower t ∈ none_sentinels then none else some t
  | none => none

/-- Validation of a tool name against the registered names, with the
fuzzy-match fallback for a nonempty unrecognized name. -/
def validateToolName (tools_available : List String) (tool1 : Option String) : Option String :=
  match tool1 with
  | some t => if t ≠ "" ∧ t ∉ tools_available then fuzzyResolve tools_available t else some t
  | none => none

/-- `Planner.extract_context_subgoal_and_tool(next_step)`. -/
def extract_context_subgoal_and_tool (tools_available : List String) (next_step : String) :
    String × String × Option String :=
  let r := extractCSTLoop (pySplitNl next_step) ("", "", none)
  (r.1, r.2.1, validateToolName tools_available (normalizeToolName r.2.2))

/-! ## Verifier -/

/-- Line loop of `Verifier.extract_conclusion`. -/
def extractConclLoop : List String → String × String → String × String
  | [], acc => acc
  | l :: rest, (a, c) =>
    let line := pyStrip l
    if pyStartsWith line "ANALYSIS:" then extractConclLoop rest (pyStrip (pyDrop line 9), c)
    else if pyStartsWith line "CONCLUSION:" then
      let conclusion_text := pyUpper (pyStrip (pyDrop line 11))
      extractConclLoop rest (a, if pyIn "STOP" conclusion_text then "STOP" else "CONTINUE")
    else extractConclLoop rest (a, c)

/-- `Verifier.extract_conclusion(verification)`: defaults to CONTINUE. -/
def extract_conclusion (verification : String) : String × String :=
  extractConclLoop (pySplitNl verification) ("", "CONTINUE")

/-! ## Executor: command extraction -/

/-- A line carrying one of the three labeled field markers. -/
def labeledLine (line : String) : Bool :=
  ["ANALYSIS:", "EXPLANATION:", "COMMAND:"].any (fun p => pyStartsWith line p)

/-- COMMAND continuation: append following stripped lines until a blank
line, a labeled line, or the end of the text. -/
def commandCont : String → List String → String
  | c, [] => c
  | c, l :: rest =>
    let next_line := pyStrip l
    if next_line ≠ "" ∧ ¬ labeledLine next_line then commandCont (c ++ " " ++ next_line) rest
    else c


/-- Line loop of `Executor.extract_explanation_and_command`; a COMMAND
line restarts the command and gathers its continuation lines. -/
def extractCmdLoop : List String → String × String × String → String × String × String
  | [], acc => acc
  | l :: rest, (a, e, c) =>
    let line := pyStrip l
    if pyStartsWith line "ANALYSIS:" then extractCmdLoop rest (pyStrip (pyDrop line 9), e, c)
    else if pyStartsWith line "EXPLANATION:" then extractCmdLoop rest (a, pyStrip (pyDrop line 12), c)
    else if pyStartsWith line "COMMAND:" then
      extractCmdLoop rest (a, e, commandCont (pyStrip (pyDrop line 8)) rest)
    else extractCmdLoop rest (a, e, c)

/-- `Executor.extract_explanation_and_command(tool_command)`. -/
def extract_explanation_and_command (tool_command : String) : String × String × String :=
  let r := extractCmdLoop (pySplitNl tool_command) ("", "", "")
  (r.1, r.2.1, pyStrip r.2.2)

/-! ## CRM tools -/

/-- The keyword blocklist of `CRMQueryTool.execute`. -/
def dangerous_keywords : List String :=
  ["INSERT", "UPDATE", "DELETE", "DROP", "ALTER", "CREATE", "TRUNCATE"]

/-- Collaborator oracles for tool execution: the record store
(`app.database.execute_query`) and the text-generation capability
(`get_llm_response`); `.error e` models the call raising an exception
with message `e`. -/
structure ToolEnv where
  execQuery : String → Except String (List Row)
  llm : String → Except String String

/-- `CRMQueryTool.execute(query=...)`. -/
def crmQueryTool_execute (env : ToolEnv) (query : String) : PyResult :=
  if query = "" then { success := false, error := some "No query provided" }
  else
    let query_upper := pyUpper (pyStrip query)
    if ¬ pyStartsWith query_upper "SELECT" then
      { success := false, error := some "Only SELECT queries allowed" }
    else
      match dangerous_keywords.find? (fun kw => pyIn kw query_upper) with
      | some kw =>
        { success := false, error := some ("Dangerous keyword '" ++ kw ++ "' not allowed") }
      | none =>
        match env.execQuery query with
        | .ok results =>
          { success := true, query := some query, result_count := some results.length,
            results := some (results.take 100) }
        | .error e => { success := false, error := some e, query := some query }

/-- The pipeline-value SQL text of `CRMAnalyticsTool.execute`. -/
def pipelineValueSql : String :=
  "SELECT SUM(amount) as total_value, COUNT(*) as deal_count FROM opportunities WHERE is_closed = false"

/-- The lead-conversion SQL text of `CRMAnalyticsTool.execute`. -/
def leadConversionSql : String :=
  "\n                    SELECT \n                        COUNT(*) FILTER (WHERE lead_status = 'converted') as converted,\n                        COUNT(*) as total\n                    FROM leads\n                "

/-- The win-rate SQL text of `CRMAnalyticsTool.execute`. -/
def winRateSql : String :=
  "\n                    SELECT \n                        COUNT(*) FILTER (WHERE is_won = true) as won,\n                        COUNT(*) FILTER (WHERE is_closed = true) as closed\n                    FROM opportunities\n                "

/-- `CRMAnalyticsTool.execute(metric=...)`.  An empty result list makes
the `**results[0]` splat raise `IndexError`, caught by the method's own
handler. -/
def crmAnalyticsTool_execute (env : ToolEnv) (metric : String) : PyResult :=
  if metric = "pipeline_value" then
    match env.execQuery pipelineValueSql with
    | .ok results =>
      { success := true, metric := some metric,
        value := some (match results.head? with
          | some r => PyVal.row r
          | none => PyVal.pipelineDefault) }
    | .error e => { success := false, error := some e }
  else if metric = "lead_conversion_rate" then
    match env.execQuery leadConversionSql with
    | .ok results =>
      match results.head? with
      | some r =>
        let rate : Rat := if r.total > 0 then ((r.converted : Rat) / (r.total : Rat)) * 100 else 0
        { success := true, metric := some metric, value := some (PyVal.convRate rate r) }
      | none => { success := false, error := some "list index out of range" }
    | .error e => { success := false, error := some e }
  else if metric = "win_rate" then
    match env.execQuery winRateSql with
    | .ok results =>
      match results.head? with
      | some r =>
        let rate : Rat := if r.closed > 0 then ((r.won : Rat) / (r.closed : Rat)) * 100 else 0
        { success := true, metric := some metric, value := some (PyVal.winRate rate r) }
      | none => { success := false, error := some "list index out of range" }
    | .error e => { success := false, error := some e }
  else { success := false, error := some ("Unknown metric: " ++ metric) }

/-- `CRMReasoningTool.execute(task=..., context=...)` (the `print`
logging is not modelled). -/
def crmReasoningTool_execute (env : ToolEnv) (task context : String) : PyResult :=
  if task = "" ∨ context = "" then
    { success := false, error := some "Both task and context are required", result_count := some 0 }
  else
    let prompt :=
      if task = "summarize" then "Summarize the following CRM data concisely:\n\n" ++ context
      else if task = "recommend" then
        "Based on this CRM data, provide actionable recommendations:\n\n" ++ context
      else if task = "analyze" then
        "Analyze this CRM data and identify key insights and patterns:\n\n" ++ context
      else if task = "explain" then
        "Explain what this CRM data means in business terms:\n\n" ++ context
      else "Task: " ++ task ++ "\n\nContext:\n" ++ context
    match env.llm prompt with
    | .ok response =>
      { success := true, task := some task, reasoning := some response, result_count := some 1 }
    | .error e => { success := false, error := some e, result_count := some 0 }

/-! ## Executor: tool dispatch -/

/-- The registered tool names, in registry order
(`AgentFlowCRMSolver.__init__`). -/
def tools_available : List String := ["CRM_Database_Query", "CRM_Analytics", "CRM_Reasoning"]

/-- The SQL sanitization chain of the `CRM_Database_Query` branch of
`Executor.execute_tool`, up to (not including) the `SELECT`-search
fallback. -/
def sanitizeSqlBase (command : String) : String :=
  let sql := pyStrip command
  let sql := String.mk (subOpenFence true sql.toList)
  let sql := String.mk (subCloseFence sql.toList)
  let sql := String.mk (subAllFence sql.toList)
  let sql :=
    match searchLazyEnvelope "query".toList sql.toList with
    | some g => String.mk g
    | none => sql
  let sql := String.mk (listReplace ['\\', squote] [squote] sql.toList)
  let sql := String.mk (listReplace ['\\', '"'] ['"'] sql.toList)
  pyStrip sql

/-- The full SQL sanitization of the `CRM_Database_Query` branch,
including the `SELECT`-search fallback. -/
def sanitizeSql (command : String) : String :=
  let sql := sanitizeSqlBase command
  if ¬ pyStartsWith (pyUpper sql) "SELECT" then
    match searchSelect sql.toList with
    | some g => pyStrip (String.mk g)
    | none => sql
  else sql

/-- Task and context extraction of the `CRM_Reasoning` branch of
`Executor.execute_tool`.  `memoryAttr` models the executor's `memory`
attribute guarded by `hasattr(self, 'memory')`: `none` when the attribute
was never set (the solver never sets it). -/
def reasoningContext (memoryAttr : Option (List ActionRec)) (command : String) :
    String × String :=
  let task :=
    match searchWordEnvelope "task".toList command.toList with
    | some w => String.mk w
    | none => "analyze"
  let context :=
    match searchLazyEnvelope "context".toList command.toList with
    | some g => String.mk g
    | none =>
      let base := pyStrip command
      match memoryAttr with
      | some actions =>
        match actions.getLast? with
        | some last =>
          match last.result.data with
          | some d => if d ≠ "" then "Previous data: " ++ d ++ "\n\nTask: " ++ base else base
          | none => base
        | none => base
      | none => base
  (task, context)

/-- `Executor.execute_tool(tool_name, command)` with tool registry keys
`tools`.  The method's outer `try/except` is unreachable in this model:
the sanitization is total and each registered tool's `execute` catches
its own collaborator exceptions, so no branch below raises. -/
def execute_tool (env : ToolEnv) (memoryAttr : Option (List ActionRec))
    (tools : List String) (tool_name command : String) : PyResult :=
  if tool_name ∉ tools then
    { success := false, error := some ("Unknown tool: " ++ tool_name) }
  else if tool_name = "CRM_Database_Query" then
    let sql := sanitizeSql command
    if ¬ pyStartsWith (pyUpper sql) "SELECT" then
      { success := false,
        error := some ("Invalid SQL (must start with SELECT): " ++ String.mk (sql.toList.take 100)) }
    else
      crmQueryTool_execute env (pyStrip (pyRstripSemi sql))
  else if tool_name = "CRM_Analytics" then
    let metric := pyLower (pyStrip command)
    let metric := String.mk (subFenceWordWs metric.toList)
    let metric := String.mk (subWsFence metric.toList)
    let metric :=
      match searchWordEnvelope "metric".toList command.toList with
      | some w => pyLower (String.mk w)
      | none => metric
    crmAnalyticsTool_execute env metric
  else if tool_name = "CRM_Reasoning" then
    let tc := reasoningContext memoryAttr command
    crmReasoningTool_execute env tc.1 tc.2
  else { success := false, error := some ("Unknown tool execution: " ++ tool_name) }

/-! ## Orchestrator (`AgentFlowCRMSolver.solve`) -/

/-- Solver configuration (`AgentFlowCRMSolver.__init__`); the wall-clock
budget `max_time` is absorbed into the `timeOk` oracle. -/
structure SolverConfig where
  max_steps : Nat := 10
  deriving Repr

/-- `max_no_tool_attempts` in `solve`. -/
def max_no_tool_attempts : Nat := 2

/-- One entry of the `reasoning_steps` trace (timestamps and the `title`
strings are not modelled; each constructor carries the entry's
control-relevant fields). -/
inductive RStep where
  /-- step 0 query analysis. -/
  | analysis (content : String)
  /-- step 1 clarification (ambiguity short-circuit). -/
  | clarification (content : String)
  | planning (step : Nat) (context sub_goal : String) (tool : Option String)
  | fallback (step : Nat) (content reason : String)
  | commandGen (step : Nat) (analysis explanation command : String)
  | execution (step : Nat) (success : Bool) (result_count : Nat) (error : Option String)
  | verification (step : Nat) (analysis conclusion : String)
  | finalOutput (step : Nat) (detailed direct : String)
  deriving Repr, DecidableEq

/-- The dictionary returned by `solve` (`execution_time` and the constant
`agentflow` / `components_used` / `tools_available` entries are not
modelled; `needs_clarification` is `false` where the source leaves the
key absent). -/
structure SolveResult where
  success : Bool
  query : String
  summary : String
  detailed_solution : String
  results : List Row
  result_count : Nat
  sql_query : Option String
  reasoning_steps : List RStep
  memory : List ActionRec
  steps : Nat
  needs_clarification : Bool
  deriving Repr, DecidableEq

/-- Collaborator outcomes for one loop iteration: the generation-backed
Planner / Executor / Verifier calls of that iteration and the tool
collaborators used by `execute_tool`. -/
structure IterEnv where
  planOut : Except String String
  cmdOut : Except String String
  tool : ToolEnv
  verifyOut : Except String String

/-- Collaborator outcomes for a whole `solve` invocation.  `iter k` holds
the outcomes of loop iteration `k` (1-based); `timeOk k` is the
time-budget check made with `k` completed iterations; `clarifyFallback k`
is the unguarded `_generate_clarifying_response` call of the
selection-failure escalation at step `k`. -/
structure SolveEnv where
  analyzeOut : Except String String
  clarifyAmbiguous : Except String String
  clarifyFallback : Nat → Except String String
  iter : Nat → IterEnv
  timeOk : Nat → Bool
  finalOut : Except String String
  directOut : Except String String

/-- The loop-local variables of `solve`. -/
structure LoopSt where
  step_count : Nat
  mem : List ActionRec
  rsteps : List RStep
  final_result : Option PyResult
  last_command : String
  consecutive_no_tool : Nat
  has_fetched_data : Bool
  has_done_reasoning : Bool
  last_tools : List String
  deriving Repr

/-- Outcome of one loop-body execution. -/
inductive IterRes where
  /-- `return` from inside the body (selection-failure escalation). -/
  | ret (r : SolveResult)
  /-- an unguarded exception propagates out of `solve`. -/
  | exn (e : String)
  /-- `break`. -/
  | brk (st : LoopSt)
  /-- fall through to the next iteration. -/
  | cont (st : LoopSt)

/-- Python `str(tool_name)` for an optional tool name. -/
def pyStrOptTool : Option String → String
  | none => "None"
  | some t => t

/-- The oscillation-guard pattern of `solve`. -/
def oscillationPattern : List String :=
  ["CRM_Database_Query", "CRM_Reasoning", "CRM_Database_Query", "CRM_Reasoning"]

/-- The failed-selection branch of the loop body (`tool_name is None or
tool_name not in self.tools`): escalate at the threshold, otherwise
record a failed action and continue. -/
def noToolBranch (env : SolveEnv) (q : String) (st : LoopSt) (k : Nat)
    (sub_goal : String) (tool_name : Option String) (rsteps : List RStep) : IterRes :=
  let cnt := st.consecutive_no_tool + 1
  if max_no_tool_attempts ≤ cnt then
    match env.clarifyFallback k with
    | .error e => IterRes.exn e
    | .ok fallback_response =>
      IterRes.ret
        { success := true, query := q, summary := fallback_response,
          detailed_solution := fallback_response, results := [], result_count := 0,
          sql_query := none,
          reasoning_steps := rsteps ++
            [RStep.fallback k fallback_response
              ("Could not determine appropriate tool after " ++ toString cnt ++ " attempts")],
          memory := st.mem, steps := k, needs_clarification := true }
  else
    let final_result : PyResult :=
      { success := false, error := some ("Unknown tool: " ++ pyStrOptTool tool_name) }
    IterRes.cont
      { st with
        step_count := k,
        rsteps := rsteps,
        mem := st.mem ++
          [{ step := k, tool := pyStrOptTool tool_name, sub_goal := sub_goal,
             command := "", result := final_result }],
        final_result := some final_result,
        consecutive_no_tool := cnt }

/-- The sliding four-entry window of recently selected tools
(`last_tools.append(...)` followed by the conditional `pop(0)`). -/
def toolWindow (last_tools : List String) (t : String) : List String :=
  let lt0 := last_tools ++ [t]
  if 4 < lt0.length then lt0.drop 1 else lt0

/-- Step 5's verdict (Verifier consultation plus extraction); a raising
call yields STOP exactly when the execution result succeeded. -/
def verdictPair (env : SolveEnv) (k : Nat) (result : PyResult) : String × String :=
  match (env.iter k).verifyOut with
  | .ok verification => extract_conclusion verification
  | .error e => ("Error: " ++ e, if result.success then "STOP" else "CONTINUE")

/-- Steps 4-5 of the loop body once the command triple `ec` and the
execution `result` are at hand: memory update, flag/window update,
forced-stop checks, verification. -/
def toolBranchExec (env : SolveEnv) (st : LoopSt) (k : Nat) (sub_goal : String)
    (t : String) (rsteps0 : List RStep) (ec : String × String × String)
    (result : PyResult) : IterRes :=
  let command := ec.2.2
  let rsteps := rsteps0 ++ [RStep.commandGen k ec.1 ec.2.1 command] ++
    [RStep.execution k result.success (result.result_count.getD 0) result.error]
  let mem := st.mem ++
    [{ step := k, tool := t, sub_goal := sub_goal, command := command, result := result }]
  let hf := st.has_fetched_data || (t = "CRM_Database_Query" && result.success)
  let hr := st.has_done_reasoning || (t = "CRM_Reasoning" && result.success)
  let lt := toolWindow st.last_tools t
  let st' : LoopSt :=
    { step_count := k, mem := mem, rsteps := rsteps, final_result := some result,
      last_command := command, consecutive_no_tool := 0,
      has_fetched_data := hf, has_done_reasoning := hr, last_tools := lt }
  if hf = true ∧ hr = true ∧ 2 ≤ k then IterRes.brk st'
  else if 4 ≤ lt.length ∧ lt = oscillationPattern then IterRes.brk st'
  else
    let vc := verdictPair env k result
    let st'' : LoopSt := { st' with rsteps := st'.rsteps ++ [RStep.verification k vc.1 vc.2] }
    if vc.2 = "STOP" then IterRes.brk st'' else IterRes.cont st''

/-- The command triple of step 3 (command generation by the Executor); a
raising call is replaced by the fixed fallback query. -/
def commandTriple (env : SolveEnv) (k : Nat) : String × String × String :=
  match (env.iter k).cmdOut with
  | .ok tool_command => extract_explanation_and_command tool_command
  | .error e => ("Error: " ++ e, "Fallback query", "SELECT COUNT(*) FROM leads")

/-- The executing branch of the loop body (steps 3-5).  `t` is the
selected registry key; `execute_tool` never raises, and the executor's
`memory` attribute is never set by the solver (hence `none`). -/
def toolBranch (env : SolveEnv) (st : LoopSt) (k : Nat) (sub_goal : String)
    (t : String) (rsteps0 : List RStep) : IterRes :=
  toolBranchExec env st k sub_goal t rsteps0 (commandTriple env k)
    (execute_tool (env.iter k).tool none tools_available t (commandTriple env k).2.2)

/-- The planning prelude of the loop body: `generate_next_step` plus
extraction, with the exception fallback of `solve`. -/
def plannedStep (env : SolveEnv) (k : Nat) : String × String × Option String :=
  match (env.iter k).planOut with
  | .ok next_step => extract_context_subgoal_and_tool tools_available next_step
  | .error e => ("Error: " ++ e, "Query database", some "CRM_Database_Query")

/-- One execution of the `while` body of `solve`, from the
`step_count += 1` at its top. -/
def loopIter (env : SolveEnv) (q : String) (st : LoopSt) : IterRes :=
  let k := st.step_count + 1
  let pst := plannedStep env k
  let tool_name := pst.2.2
  let rsteps := st.rsteps ++ [RStep.planning k pst.1 pst.2.1 tool_name]
  let known : Bool :=
    match tool_name with
    | some t => tools_available.contains t
    | none => false
  if known = false then noToolBranch env q st k pst.2.1 tool_name rsteps
  else toolBranch env st k pst.2.1 (pyStrOptTool tool_name) rsteps

/-- Result of running the `while` loop. -/
inductive LoopOut where
  | early (r : SolveResult)
  | panic (e : String)
  | done (st : LoopSt)

/-- The `while step_count < max_steps and (elapsed) < max_time` loop.
`fuel` is the number of iterations still allowed by the step bound:
callers pass `max_steps` with `step_count = 0`, and each iteration
increments `step_count` by exactly one, so `fuel = 0` is exactly the
failure of `step_count < max_steps`. -/
def loopRun (env : SolveEnv) (q : String) : Nat → LoopSt → LoopOut
  | 0, st => LoopOut.done st
  | fuel + 1, st =>
    if env.timeOk st.step_count then
      match loopIter env q st with
      | .ret r => LoopOut.early r
      | .exn e => LoopOut.panic e
      | .brk st' => LoopOut.done st'
      | .cont st' => loopRun env q fuel st'
    else LoopOut.done st

/-- Python `str(final_result)` in the final-output exception fallback;
the dict rendering is modelled by the Lean `repr` of the record (no
modelled decision or claim depends on this text). -/
def pyStrOfFinal : Option PyResult → String
  | none => "None"
  | some r => toString (repr r)

/-- `result_count` read of the final result (`final_result.get('result_count', 0)
if final_result else 0`). -/
def finalResultCount : Option PyResult → Nat
  | none => 0
  | some r => r.result_count.getD 0

/-- Final-output generation and response construction after the loop
exits. -/
def finalize (env : SolveEnv) (q : String) (st : LoopSt) : SolveResult :=
  let fo :=
    match env.finalOut with
    | .error _ => none
    | .ok f =>
      match env.directOut with
      | .error _ => none
      | .ok d => some (f, d)
  let outputs :=
    match fo with
    | some p => p
    | none =>
      ("Results from query: " ++ pyStrOfFinal st.final_result,
       "Query completed with " ++ toString (finalResultCount st.final_result) ++ " results.")
  let final_output := outputs.1
  let direct_output := outputs.2
  let rsteps := st.rsteps ++ [RStep.finalOutput (st.step_count + 1) final_output direct_output]
  { success := (match st.final_result with | some r => r.success | none => false),
    query := q,
    summary := direct_output,
    detailed_solution := final_output,
    results := (match st.final_result with | some r => r.results.getD [] | none => []),
    result_count := finalResultCount st.final_result,
    sql_query := if pyIn "SELECT" (pyUpper st.last_command) then some st.last_command else none,
    reasoning_steps := rsteps,
    memory := st.mem,
    steps := st.step_count,
    needs_clarification := false }

/-- The loop state at loop entry (after `memory.clear()` and query
analysis). -/
def initLoopSt (query_analysis : String) : LoopSt :=
  { step_count := 0, mem := [], rsteps := [RStep.analysis query_analysis],
    final_result := none, last_command := "", consecutive_no_tool := 0,
    has_fetched_data := false, has_done_reasoning := false, last_tools := [] }

/-- The step-0 query analysis (`planner.analyze_query` wrapped by the
`try/except` of `solve`). -/
def queryAnalysis (env : SolveEnv) (query : String) : String :=
  match env.analyzeOut with
  | .ok a => a
  | .error e => "Query about: " ++ query ++ ". Error during analysis: " ++ e

/-- `AgentFlowCRMSolver.solve(query)`.  `_prevMemory` is the solver's
`Memory` content left over from an earlier invocation; `solve` begins
with `self.memory.clear()`, so it is discarded unread.  The result is
`.error e` when an unguarded generation call raises (the ambiguity and
escalation clarifying calls are the only such calls). -/
def solve (cfg : SolverConfig) (env : SolveEnv) (query : String)
    (_prevMemory : List ActionRec) : Except String SolveResult :=
  let query_analysis := queryAnalysis env query
  match is_query_ambiguous env.clarifyAmbiguous query query_analysis with
  | .error e => .error e
  | .ok (true, clarifying_response) =>
    .ok { success := true, query := query, summary := clarifying_response,
          detailed_solution := clarifying_response, results := [], result_count := 0,
          sql_query := none,
          reasoning_steps := [RStep.analysis query_analysis,
                              RStep.clarification clarifying_response],
          memory := [], steps := 1, needs_clarification := true }
  | .ok (false, _) =>
    match loopRun env query cfg.max_steps (initLoopSt query_analysis) with
    | .panic e => .error e
    | .early r => .ok r
    | .done st => .ok (finalize env query st)

/-- The steps at which `verification` trace entries were recorded. -/
def verificationSteps (l : List RStep) : List Nat :=
  l.filterMap fun r =>
    match r with
    | .verification k _ _ => some k
    | _ => none

/-- The forced-stop situation of the claim: by step `k` (at least 2) both
a successful `CRM_Database_Query` execution and a successful
`CRM_Reasoning` execution have been recorded. -/
def stopCond (mem : List ActionRec) (k : Nat) : Prop :=
  2 ≤ k ∧
  (∃ a ∈ mem, a.step ≤ k ∧ a.tool = "CRM_Database_Query" ∧ a.result.success = true) ∧
  (∃ a ∈ mem, a.step ≤ k ∧ a.tool = "CRM_Reasoning" ∧ a.result.success = true)

instance (mem : List ActionRec) (k : Nat) : Decidable (stopCond mem k) := by
  unfold stopCond; infer_instance

/-! ## Spec-side readings used by the claims -/

/-- Spec reading: "the query has fewer than 5 words". -/
def specShortQuery (q : String) : Prop := (pySplitWs q).length < 5

/-- Spec reading: "its lower-cased text contains one of the fixed
content-free phrases". -/
def specMatchesVaguePhrase (q : String) : Prop :=
  ∃ p ∈ vague_patterns, pyIn p (pyStrip (pyLower q)) = true

/-- Spec reading: "it contains none of the fixed CRM domain keywords". -/
def specNoCrmKeyword (q : String) : Prop :=
  ∀ kw ∈ crm_keywords, pyIn kw (pyStrip (pyLower q)) = false

/-- Spec reading of the fuzzy-match relation: one lowercased string is
contained in the other. -/
def specFuzzyRel (n t : String) : Prop :=
  pyIn (pyLower n) (pyLower t) = true ∨ pyIn (pyLower t) (pyLower n) = true

/-- Spec reading of "each continuation line concatenated with a single
separating space". -/
def joinWithSpace (c : String) (ls : List String) : String :=
  ls.foldl (fun acc l => acc ++ " " ++ l) c

/-! ## Helper lemmas -/

lemma is_vague_query_iff (q : String) :
    is_vague_query q = true ↔
      specShortQuery q ∧ specMatchesVaguePhrase q ∧ specNoCrmKeyword q := by
  unfold is_vague_query specShortQuery specMatchesVaguePhrase specNoCrmKeyword
  simp only [Bool.and_eq_true, Bool.not_eq_true', List.any_eq_true, List.any_eq_false,
    decide_eq_true_eq, Bool.not_eq_true]
  tauto

lemma commandCont_eq_join (rest : List String) : ∀ c,
    commandCont c rest =
      joinWithSpace c ((rest.map pyStrip).takeWhile fun l => !(l == "") && !(labeledLine l)) := by
  induction rest with
  | nil => intro c; rfl
  | cons l rest ih =>
    intro c
    simp only [commandCont, List.map_cons, List.takeWhile_cons]
    by_cases h : pyStrip l ≠ "" ∧ ¬ labeledLine (pyStrip l) = true
    · have hb : (!(pyStrip l == "") && !labeledLine (pyStrip l)) = true := by
        simp only [Bool.and_eq_true, Bool.not_eq_true', beq_eq_false_iff_ne, ne_eq,
          Bool.not_eq_true]
        exact ⟨h.1, by simpa using h.2⟩
      rw [if_pos h, hb]
      simp only [if_true]
      rw [ih]
      simp [joinWithSpace]
    · have hb : (!(pyStrip l == "") && !labeledLine (pyStrip l)) = false := by
        rcases not_and_or.mp h with h1 | h2
        · have h1' : pyStrip l = "" := by simpa using h1
          simp [h1']
        · have h2' : labeledLine (pyStrip l) = true := by simpa using h2
          simp [h2']
      rw [if_neg h, hb]
      simp only [if_false, Bool.false_eq_true]
      rfl

lemma isPrefixOf_cons_ex {a : Char} {as l : List Char} (h : (a :: as).isPrefixOf l = true) :
    ∃ t, l = a :: t := by
  cases l with
  | nil => simp at h
  | cons b bs =>
    rw [List.isPrefixOf_cons₂] at h
    simp only [Bool.and_eq_true, beq_iff_eq] at h
    exact ⟨bs, by rw [h.1]⟩

lemma pyStartsWith_head_ne {s : String} {c d : Char} {cs ds : List Char} {p q : String}
    (hp : p.toList = c :: cs) (hq : q.toList = d :: ds) (hne : d ≠ c)
    (h : pyStartsWith s p = true) : pyStartsWith s q = false := by
  unfold pyStartsWith at *
  rw [hp] at h
  obtain ⟨t, ht⟩ := isPrefixOf_cons_ex h
  rw [hq, ht, List.isPrefixOf_cons₂]
  simp [hne]

lemma extractCmdLoop_third_of_no_command (rest : List String)
    (h : ∀ l ∈ rest, pyStartsWith (pyStrip l) "COMMAND:" = false) :
    ∀ a e c, (extractCmdLoop rest (a, e, c)).2.2 = c := by
  induction rest with
  | nil => intro a e c; rfl
  | cons l rest ih =>
    intro a e c
    have hl : pyStartsWith (pyStrip l) "COMMAND:" = false := h l (by simp)
    have hrest : ∀ x ∈ rest, pyStartsWith (pyStrip x) "COMMAND:" = false :=
      fun x hx => h x (by simp [hx])
    simp only [extractCmdLoop]
    by_cases h1 : pyStartsWith (pyStrip l) "ANALYSIS:" = true
    · rw [if_pos h1]; exact ih hrest _ _ _
    · rw [if_neg h1]
      by_cases h2 : pyStartsWith (pyStrip l) "EXPLANATION:" = true
      · rw [if_pos h2]; exact ih hrest _ _ _
      · rw [if_neg h2]
        rw [if_neg (by simp [hl])]
        exact ih hrest _ _ _

instance {e a : Type} [DecidableEq e] [DecidableEq a] : DecidableEq (Except e a) := fun x y =>
  match x, y with
  | .ok u, .ok v =>
    if h : u = v then isTrue (by rw [h]) else isFalse (by intro hc; cases hc; exact h rfl)
  | .error u, .error v =>
    if h : u = v then isTrue (by rw [h]) else isFalse (by intro hc; cases hc; exact h rfl)
  | .ok _, .error _ => isFalse (by intro hc; cases hc)
  | .error _, .ok _ => isFalse (by intro hc; cases hc)

/-! ## Claim C5 (ambiguity detector) -/

/-- **C5 (amended).** `is_query_ambiguous` returns true only when all three
conditions hold (query under 5 words, lower-cased text contains one of the
fixed content-free phrases, and none of the fixed CRM domain keywords
occurs), and the clarifying text is then exactly the generation
capability's response — non-empty exactly when that response is.  The
query "huh" yields ambiguous with the generated clarifying text, and
"show me top 10 opportunities by amount" yields not-ambiguous. -/
theorem claim_C5_ambiguity_detector :
    (∀ gen q a b s, is_query_ambiguous gen q a = .ok (b, s) → b = true →
      (specShortQuery q ∧ specMatchesVaguePhrase q ∧ specNoCrmKeyword q) ∧
        gen = Except.ok s) ∧
    (∀ c a, is_query_ambiguous (.ok c) "huh" a = .ok (true, c)) ∧
    (∀ gen a, is_query_ambiguous gen "show me top 10 opportunities by amount" a
      = .ok (false, "")) := by
  refine ⟨?_, ?_, ?_⟩
  · intro gen q a b s h hb
    subst hb
    unfold is_query_ambiguous at h
    by_cases hv : is_vague_query q = true
    · rw [if_pos hv] at h
      have hcond := (is_vague_query_iff q).mp hv
      cases gen with
      | ok c => simp only [Except.ok.injEq, Prod.mk.injEq] at h; exact ⟨hcond, by rw [h.2]⟩
      | error e => simp at h
    · rw [if_neg hv] at h
      simp at h
  · intro c a
    have hv : is_vague_query "huh" = true := by decide
    unfold is_query_ambiguous
    rw [if_pos hv]
  · intro gen a
    have hv : is_vague_query "show me top 10 opportunities by amount" = false := by decide
    unfold is_query_ambiguous
    rw [if_neg (by simp [hv])]

/-- Witness for C5 at the concrete input "huh". -/
theorem claim_C5_witness :
    ((specShortQuery "huh" ∧ specMatchesVaguePhrase "huh" ∧ specNoCrmKeyword "huh") ∧
      (Except.ok "Could you clarify?" : Except String String) = Except.ok "Could you clarify?") ∧
    is_query_ambiguous (.ok "Could you clarify?") "huh" "a" = .ok (true, "Could you clarify?") :=
  ⟨claim_C5_ambiguity_detector.1 (.ok "Could you clarify?") "huh" "a" true "Could you clarify?"
      (by decide) rfl,
   claim_C5_ambiguity_detector.2.1 "Could you clarify?" "a"⟩

/-- **C5 counterexample.** The claim asserts the clarifying text is
non-empty; when the generation capability returns the empty string,
`is_query_ambiguous` on "huh" yields ambiguous with an empty clarifying
text. -/
theorem claim_C5_counterexample :
    is_query_ambiguous (.ok "") "huh" "analysis" = .ok (true, "") ∧
    ("" : String).length = 0 := by
  constructor
  · decide
  · rfl

/-! ## Claim C6 (fuzzy tool-name resolution) -/

/-- **C6 (amended).** A TOOL value that is nonempty, none of the no-tool
sentinels, and not exactly a registered name is resolved by
case-insensitive substring matching against the registered names (one
string contained in the other), yielding nil exactly when no registered
name matches, and a matching registered name otherwise.  With the
underscore spelling, `TOOL: database_query` resolves to
`CRM_Database_Query`; the space spelling `database query` is NOT a
substring of any registered name (see the counterexample). -/
theorem claim_C6_fuzzy_tool_resolution :
    (∀ next_step c s t,
      extractCSTLoop (pySplitNl next_step) ("", "", none) = (c, s, some t) →
      t ≠ "" → pyLower t ∉ none_sentinels → t ∉ tools_available →
      (((extract_context_subgoal_and_tool tools_available next_step).2.2 = none ↔
        ∀ n ∈ tools_available, ¬ specFuzzyRel n t) ∧
      (∀ n, (extract_context_subgoal_and_tool tools_available next_step).2.2 = some n →
        n ∈ tools_available ∧ specFuzzyRel n t))) ∧
    extract_context_subgoal_and_tool tools_available "TOOL: database_query"
      = ("", "", some "CRM_Database_Query") := by
  constructor
  · intro next_step c s t hparse hne hsent hreg
    have hres : (extract_context_subgoal_and_tool tools_available next_step).2.2
        = fuzzyResolve tools_available t := by
      simp only [extract_context_subgoal_and_tool, hparse]
      have hn1 : normalizeToolName (some t) = some t := by
        show (if t ≠ "" ∧ pyLower t ∈ none_sentinels then none else some t) = some t
        exact if_neg (fun hc => hsent hc.2)
      rw [hn1]
      show (if t ≠ "" ∧ t ∉ tools_available then fuzzyResolve tools_available t else some t) = _
      exact if_pos ⟨hne, hreg⟩
    rw [hres]
    unfold fuzzyResolve
    constructor
    · rw [List.find?_eq_none]
      constructor
      · intro hall n hn hrel
        have hpn := hall n hn
        rcases hrel with h1 | h1 <;> simp [h1] at hpn
      · intro hall n hn
        have h2 := hall n hn
        unfold specFuzzyRel at h2
        simp only [Bool.or_eq_true, not_or, Bool.not_eq_true] at h2 ⊢
        exact h2
    · intro n hn
      refine ⟨List.mem_of_find?_eq_some hn, ?_⟩
      have hp := List.find?_some hn
      simpa [specFuzzyRel] using hp
  · decide

/-- Witness for C6: at `TOOL: database query` the fuzzy match finds no
registered name (space versus underscore), so resolution yields nil. -/
theorem claim_C6_witness :
    (((extract_context_subgoal_and_tool tools_available "TOOL: database query").2.2 = none ↔
      ∀ n ∈ tools_available, ¬ specFuzzyRel n "database query") ∧
    (∀ n, (extract_context_subgoal_and_tool tools_available "TOOL: database query").2.2 = some n →
      n ∈ tools_available ∧ specFuzzyRel n "database query")) ∧
    extract_context_subgoal_and_tool tools_available "TOOL: database_query"
      = ("", "", some "CRM_Database_Query") :=
  ⟨claim_C6_fuzzy_tool_resolution.1 "TOOL: database query" "" "" "database query" rfl
      (by decide) (by decide) (by decide),
   claim_C6_fuzzy_tool_resolution.2⟩

/-- **C6 counterexample.** The claim's instance fails: the emitted value
"database query" (with a space) resolves to nil, not to
`CRM_Database_Query`, because neither lowercased string contains the
other (`CRM_Database_Query` spells the gap with an underscore). -/
theorem claim_C6_counterexample :
    extract_context_subgoal_and_tool tools_available "TOOL: database query" = ("", "", none) ∧
    (none : Option String) ≠ some "CRM_Database_Query" := by
  constructor
  · decide
  · simp

/-! ## Claim C7 (COMMAND continuation) -/

/-- **C7 (amended).** The command begun on a stripped line starting with
`COMMAND:` continues across subsequent stripped lines until the first
line that is blank or carries a labeled field marker
(ANALYSIS:/EXPLANATION:/COMMAND:), or the end of the text — each
continuation line concatenated with a single separating space — and the
whole command is finally stripped.  The claim's instance
`COMMAND: SELECT 1` + unlabeled `more text` gives `SELECT 1 more text`. -/
theorem claim_C7_command_continuation :
    (∀ s l0 rest, pySplitNl s = l0 :: rest →
      pyStartsWith (pyStrip l0) "COMMAND:" = true →
      (∀ l ∈ rest, pyStartsWith (pyStrip l) "COMMAND:" = false) →
      (extract_explanation_and_command s).2.2 =
        pyStrip (joinWithSpace (pyStrip (pyDrop (pyStrip l0) 8))
          ((rest.map pyStrip).takeWhile fun l => !(l == "") && !(labeledLine l)))) ∧
    (extract_explanation_and_command "COMMAND: SELECT 1\nmore text").2.2
      = "SELECT 1 more text" := by
  constructor
  · intro s l0 rest hsplit hcmd hnocmd
    have ha : pyStartsWith (pyStrip l0) "ANALYSIS:" = false :=
      pyStartsWith_head_ne (c := 'C') (d := 'A') rfl rfl (by decide) hcmd
    have he : pyStartsWith (pyStrip l0) "EXPLANATION:" = false :=
      pyStartsWith_head_ne (c := 'C') (d := 'E') rfl rfl (by decide) hcmd
    unfold extract_explanation_and_command
    rw [hsplit]
    simp only [extractCmdLoop, ha, he, hcmd]
    simp only [Bool.false_eq_true, if_false, if_true]
    rw [extractCmdLoop_third_of_no_command rest hnocmd]
    rw [commandCont_eq_join]
  · decide

/-- Witness for C7 at the concrete input with a blank continuation
line. -/
theorem claim_C7_witness :
    (extract_explanation_and_command "COMMAND: SELECT 1\n\nmore text").2.2 =
      pyStrip (joinWithSpace (pyStrip (pyDrop (pyStrip "COMMAND: SELECT 1") 8))
        ((["", "more text"].map pyStrip).takeWhile fun l => !(l == "") && !(labeledLine l))) :=
  claim_C7_command_continuation.1 "COMMAND: SELECT 1\n\nmore text" "COMMAND: SELECT 1"
    ["", "more text"] rfl rfl (by decide)

/-- **C7 counterexample.** A blank line also terminates the continuation:
`COMMAND: SELECT 1` followed by a blank line and then `more text` yields
`SELECT 1`, not the `SELECT 1 more text` the claim requires (the blank
line is unlabeled and is not the end of the text). -/
theorem claim_C7_counterexample :
    (extract_explanation_and_command "COMMAND: SELECT 1\n\nmore text").2.2 = "SELECT 1" ∧
    ("SELECT 1" : String) ≠ "SELECT 1 more text" := by
  constructor
  · decide
  · simp

/-! ## Claim C8 (execute_tool never raises; failure errors) -/

/-- All exception messages a collaborator environment can produce are
non-empty. -/
def envMsgsNonEmpty (env : ToolEnv) : Prop :=
  (∀ q e, env.execQuery q = .error e → e ≠ "") ∧ (∀ p e, env.llm p = .error e → e ≠ "")

lemma append_ne_empty {a : String} (b : String) (ha : a.data ≠ []) : a ++ b ≠ "" := by
  intro hc
  have hd := congrArg String.data hc
  rw [String.data_append] at hd
  exact ha (List.append_eq_nil.mp hd).1

lemma append3_ne_empty {a : String} (b c : String) (ha : a.data ≠ []) : a ++ b ++ c ≠ "" := by
  intro hc
  have hd := congrArg String.data hc
  simp only [String.data_append, List.append_eq_nil] at hd
  exact ha hd.1.1

/-- Every outcome of the structured-query tool is a success or a failure
whose error entry is present, and non-empty when collaborator exception
messages are. -/
lemma crmQueryTool_cases (env : ToolEnv) (q : String) :
    (crmQueryTool_execute env q).success = true ∨
    ((crmQueryTool_execute env q).success = false ∧
      ∃ e, (crmQueryTool_execute env q).error = some e ∧ (envMsgsNonEmpty env → e ≠ "")) := by
  simp only [crmQueryTool_execute]
  split
  · exact Or.inr ⟨rfl, _, rfl, fun _ => by decide⟩
  · split
    · exact Or.inr ⟨rfl, _, rfl, fun _ => by decide⟩
    · split
      · exact Or.inr ⟨rfl, _, rfl, fun _ => append3_ne_empty _ _ (by decide)⟩
      · split
        · exact Or.inl rfl
        · rename_i e heq
          exact Or.inr ⟨rfl, e, rfl, fun hne => hne.1 q e heq⟩

/-- As `crmQueryTool_cases`, for the analytics tool. -/
lemma crmAnalyticsTool_cases (env : ToolEnv) (metric : String) :
    (crmAnalyticsTool_execute env metric).success = true ∨
    ((crmAnalyticsTool_execute env metric).success = false ∧
      ∃ e, (crmAnalyticsTool_execute env metric).error = some e ∧
        (envMsgsNonEmpty env → e ≠ "")) := by
  simp only [crmAnalyticsTool_execute]
  split
  · split
    · exact Or.inl rfl
    · rename_i e heq
      exact Or.inr ⟨rfl, e, rfl, fun hne => hne.1 _ e heq⟩
  · split
    · split
      · split
        · exact Or.inl rfl
        · exact Or.inr ⟨rfl, _, rfl, fun _ => by decide⟩
      · rename_i e heq
        exact Or.inr ⟨rfl, e, rfl, fun hne => hne.1 _ e heq⟩
    · split
      · split
        · split
          · exact Or.inl rfl
          · exact Or.inr ⟨rfl, _, rfl, fun _ => by decide⟩
        · rename_i e heq
          exact Or.inr ⟨rfl, e, rfl, fun hne => hne.1 _ e heq⟩
      · exact Or.inr ⟨rfl, _, rfl, fun _ => append_ne_empty _ (by decide)⟩

/-- As `crmQueryTool_cases`, for the reasoning tool. -/
lemma crmReasoningTool_cases (env : ToolEnv) (task context : String) :
    (crmReasoningTool_execute env task context).success = true ∨
    ((crmReasoningTool_execute env task context).success = false ∧
      ∃ e, (crmReasoningTool_execute env task context).error = some e ∧
        (envMsgsNonEmpty env → e ≠ "")) := by
  simp only [crmReasoningTool_execute]
  split
  · exact Or.inr ⟨rfl, _, rfl, fun _ => by decide⟩
  · split
    · exact Or.inl rfl
    · rename_i e heq
      exact Or.inr ⟨rfl, e, rfl, fun hne => hne.2 _ e heq⟩

/-- Every outcome of `execute_tool` is a success or a failure whose error
entry is present (non-empty when collaborator exception messages are). -/
lemma execute_tool_cases (env : ToolEnv) (memoryAttr : Option (List ActionRec))
    (tool_name command : String) :
    (execute_tool env memoryAttr tools_available tool_name command).success = true ∨
    ((execute_tool env memoryAttr tools_available tool_name command).success = false ∧
      ∃ e, (execute_tool env memoryAttr tools_available tool_name command).error = some e ∧
        (envMsgsNonEmpty env → e ≠ "")) := by
  simp only [execute_tool]
  split
  · exact Or.inr ⟨rfl, _, rfl, fun _ => append_ne_empty _ (by decide)⟩
  · split
    · split
      · exact Or.inr ⟨rfl, _, rfl, fun _ => append_ne_empty _ (by decide)⟩
      · exact crmQueryTool_cases env _
    · split
      · exact crmAnalyticsTool_cases env _
      · split
        · exact crmReasoningTool_cases env _ _
        · exact Or.inr ⟨rfl, _, rfl, fun _ => append_ne_empty _ (by decide)⟩

/-- **C8 (amended).** `execute_tool` is a total function of its inputs
(the model needs no exception outcome: the registry check, the
sanitization, and each tool's own handler convert every collaborator
exception into a failure result).  A tool name absent from the registry
yields the failure result carrying `Unknown tool: <name>`, and every
failure result carries an error entry, which is non-empty whenever the
collaborators' exception messages are non-empty (the source copies
`str(e)` verbatim, so an empty exception message yields an empty error
string — see the counterexample). -/
theorem claim_C8_execute_tool_failure_errors :
    (∀ env memoryAttr tool_name command,
      (execute_tool env memoryAttr tools_available tool_name command).success = false →
      ∃ e, (execute_tool env memoryAttr tools_available tool_name command).error = some e ∧
        (envMsgsNonEmpty env → e ≠ "")) ∧
    (∀ env memoryAttr (t c : String), t ∉ tools_available →
      execute_tool env memoryAttr tools_available t c =
        { success := false, error := some ("Unknown tool: " ++ t) }) := by
  constructor
  · intro env memoryAttr tool_name command h
    rcases execute_tool_cases env memoryAttr tool_name command with hs | ⟨_, he⟩
    · rw [h] at hs; cases hs
    · exact he
  · intro env memoryAttr t c ht
    unfold execute_tool
    rw [if_pos ht]

/-- Witness for C8: a failing lookup of an unregistered tool and a
dangerous-keyword rejection, both carrying non-empty errors. -/
theorem claim_C8_witness :
    (∃ e, (execute_tool { execQuery := fun _ => .error "db down", llm := fun _ => .ok "" } none
        tools_available "CRM_Database_Query" "SELECT 1").error = some e ∧
      (envMsgsNonEmpty { execQuery := fun _ => .error "db down", llm := fun _ => .ok "" } → e ≠ "")) ∧
    execute_tool { execQuery := fun _ => .ok [], llm := fun _ => .ok "" } none
        tools_available "NoSuchTool" "x" =
      { success := false, error := some ("Unknown tool: " ++ "NoSuchTool") } :=
  ⟨claim_C8_execute_tool_failure_errors.1 _ none "CRM_Database_Query" "SELECT 1" rfl,
   claim_C8_execute_tool_failure_errors.2 _ none "NoSuchTool" "x" (by decide)⟩

/-- **C8 counterexample.** The claim asserts every failure result carries
a non-empty error string; a collaborator exception whose `str()` is empty
is copied verbatim, producing a failure result with an empty error
string. -/
theorem claim_C8_counterexample :
    (execute_tool { execQuery := fun _ => .error "", llm := fun p => .ok p } none
      tools_available "CRM_Database_Query" "SELECT 1").success = false ∧
    (execute_tool { execQuery := fun _ => .error "", llm := fun p => .ok p } none
      tools_available "CRM_Database_Query" "SELECT 1").error = some "" := ⟨rfl, rfl⟩

/-! ## Claim C9 (reasoning-tool task/context extraction) -/

lemma crmQueryTool_data_none (env : ToolEnv) (q : String) :
    (crmQueryTool_execute env q).data = none := by
  simp only [crmQueryTool_execute]
  split
  · rfl
  · split
    · rfl
    · split
      · rfl
      · split <;> rfl

lemma crmAnalyticsTool_data_none (env : ToolEnv) (metric : String) :
    (crmAnalyticsTool_execute env metric).data = none := by
  simp only [crmAnalyticsTool_execute]
  split
  · split <;> rfl
  · split
    · split
      · split <;> rfl
      · rfl
    · split
      · split
        · split <;> rfl
        · rfl
      · rfl

lemma crmReasoningTool_data_none (env : ToolEnv) (task context : String) :
    (crmReasoningTool_execute env task context).data = none := by
  simp only [crmReasoningTool_execute]
  split
  · rfl
  · split <;> rfl

/-- No `execute_tool` outcome carries a `data` entry: the prefix
condition of the reasoning branch can never be satisfied by a result a
registered tool produced. -/
lemma execute_tool_data_none (env : ToolEnv) (memoryAttr : Option (List ActionRec))
    (tool_name command : String) :
    (execute_tool env memoryAttr tools_available tool_name command).data = none := by
  simp only [execute_tool]
  split
  · rfl
  · split
    · split
      · rfl
      · exact crmQueryTool_data_none env _
    · split
      · exact crmAnalyticsTool_data_none env _
      · split
        · exact crmReasoningTool_data_none env _ _
        · rfl

/-- **C9 (amended).** The reasoning dispatch extracts a task keyword and a
context string from a `task='...'`/`context='...'` call envelope when
present; with no context envelope the stripped raw command text is used
as the context.  A `Previous data:` prefix is prepended only when the
executor object carries a `memory` attribute whose last action's result
(successful or not) has a non-empty `data` entry; the solver never sets
that attribute, and no registered tool ever emits a `data` entry, so the
prefix never occurs in this program. -/
theorem claim_C9_reasoning_task_context :
    (∀ memoryAttr cmd t ctx,
      searchWordEnvelope "task".toList cmd.toList = some t →
      searchLazyEnvelope "context".toList cmd.toList = some ctx →
      reasoningContext memoryAttr cmd = (String.mk t, String.mk ctx)) ∧
    (∀ cmd, searchLazyEnvelope "context".toList cmd.toList = none →
      (reasoningContext none cmd).2 = pyStrip cmd) ∧
    (∀ memoryAttr cmd, searchLazyEnvelope "context".toList cmd.toList = none →
      (reasoningContext memoryAttr cmd).2 ≠ pyStrip cmd →
      ∃ actions last d, memoryAttr = some actions ∧ actions.getLast? = some last ∧
        last.result.data = some d ∧ d ≠ "" ∧
        (reasoningContext memoryAttr cmd).2 =
          "Previous data: " ++ d ++ "\n\nTask: " ++ pyStrip cmd) ∧
    (∀ env memoryAttr tool_name cmd,
      (execute_tool env memoryAttr tools_available tool_name cmd).data = none) := by
  refine ⟨?_, ?_, ?_, fun env m t c => execute_tool_data_none env m t c⟩
  · intro memoryAttr cmd t ctx ht hctx
    simp only [reasoningContext, ht, hctx]
  · intro cmd hctx
    simp only [reasoningContext, hctx]
  · intro memoryAttr cmd hctx hne
    simp only [reasoningContext, hctx] at hne ⊢
    match memoryAttr with
    | none => exact absurd rfl hne
    | some actions =>
      match hl : actions.getLast? with
      | none => simp only [hl] at hne ⊢; exact absurd rfl hne
      | some last =>
        simp only [hl] at hne ⊢
        match hd : last.result.data with
        | none => simp only [hd] at hne ⊢; exact absurd rfl hne
        | some d =>
          simp only [hd] at hne ⊢
          by_cases hde : d ≠ ""
          · rw [if_pos hde] at hne ⊢
            exact ⟨actions, last, d, rfl, hl, hd, hde, rfl⟩
          · rw [if_neg hde] at hne
            exact absurd rfl hne

/-- Witness for C9: envelope extraction and the raw-command fallback at
concrete commands. -/
theorem claim_C9_witness :
    reasoningContext none "CRM_Reasoning(task='summarize', context='some data')"
      = (String.mk "summarize".toList, String.mk "some data".toList) ∧
    (reasoningContext none "review the results").2 = pyStrip "review the results" :=
  ⟨claim_C9_reasoning_task_context.1 none "CRM_Reasoning(task='summarize', context='some data')"
      "summarize".toList "some data".toList rfl rfl,
   claim_C9_reasoning_task_context.2.1 "review the results" rfl⟩

/-- The last (and only) action of this memory is a successful structured
query: the exact situation in which the claim requires the prefix. -/
def memWithDbSuccess : List ActionRec :=
  [{ step := 1, tool := "CRM_Database_Query", sub_goal := "fetch",
     command := "SELECT * FROM opportunities",
     result := { success := true, query := some "SELECT * FROM opportunities",
                 result_count := some 1, results := some [{ total := 1 }] } }]

/-- **C9 counterexample.** Even granting the executor a memory attribute
whose last action is a successful structured-query result, the context
for a context-free reasoning command is the raw command with NO
`Previous data:` prefix: the prefix condition reads a `data` entry that
the query tool never produces (and in the program the attribute is never
set at all). -/
theorem claim_C9_counterexample :
    (memWithDbSuccess.getLast?).map (fun a => (a.tool, a.result.success))
      = some ("CRM_Database_Query", true) ∧
    (reasoningContext (some memWithDbSuccess) "review the results").2 = "review the results" ∧
    pyIn "Previous data" "review the results" = false := ⟨rfl, rfl, by decide⟩

/-! ## Loop invariants -/

/-- Memory step indices are exactly `1..N`, in order. -/
def memOK (mem : List ActionRec) : Prop :=
  mem.map (fun a => a.step) = List.range' 1 mem.length

/-- The loop flags coincide with the presence of successful executions of
the corresponding tools in memory. -/
def flagsOK (st : LoopSt) : Prop :=
  (st.has_fetched_data = true ↔
    ∃ a ∈ st.mem, a.tool = "CRM_Database_Query" ∧ a.result.success = true) ∧
  (st.has_done_reasoning = true ↔
    ∃ a ∈ st.mem, a.tool = "CRM_Reasoning" ∧ a.result.success = true)

/-- Facts carried by every loop state and still true at loop exit. -/
structure BaseInv (st : LoopSt) : Prop where
  count : st.mem.length = st.step_count
  mem_ok : memOK st.mem
  final_ok : (match st.mem.getLast? with
    | some a => st.final_result = some a.result
    | none => st.final_result = none)
  data_none : ∀ a ∈ st.mem, a.result.data = none
  verif_le : ∀ v ∈ verificationSteps st.rsteps, v ≤ st.step_count
  verif_ok : ∀ v ∈ verificationSteps st.rsteps, ¬ stopCond st.mem v
  stop_imm : ∀ k, stopCond st.mem k → ∀ a ∈ st.mem, a.step ≤ k

/-- The invariant of states from which the loop continues. -/
structure LoopInv (st : LoopSt) : Prop where
  base : BaseInv st
  flags : flagsOK st
  no_stop : ∀ k, ¬ stopCond st.mem k

lemma verificationSteps_append (l1 l2 : List RStep) :
    verificationSteps (l1 ++ l2) = verificationSteps l1 ++ verificationSteps l2 :=
  List.filterMap_append l1 l2 _

lemma memOK_append {mem : List ActionRec} {rec : ActionRec} (h : memOK mem)
    (hstep : rec.step = mem.length + 1) : memOK (mem ++ [rec]) := by
  unfold memOK at *
  rw [List.map_append, h, List.length_append, List.map_singleton, hstep]
  simp only [List.length_singleton]
  rw [List.range'_concat]
  simp [Nat.add_comm]

lemma memOK_step_le {mem : List ActionRec} (h : memOK mem) :
    ∀ a ∈ mem, 1 ≤ a.step ∧ a.step ≤ mem.length := by
  intro a ha
  have hm : a.step ∈ mem.map (fun a => a.step) := List.mem_map_of_mem _ ha
  rw [h] at hm
  have := List.mem_range'_1.mp hm
  omega

lemma exists_succ_append (mem : List ActionRec) (rec : ActionRec) (tool : String) :
    (∃ a ∈ mem ++ [rec], a.tool = tool ∧ a.result.success = true) ↔
    ((∃ a ∈ mem, a.tool = tool ∧ a.result.success = true) ∨
      (rec.tool = tool ∧ rec.result.success = true)) := by
  constructor
  · rintro ⟨a, ha, hp⟩
    rcases List.mem_append.mp ha with h1 | h1
    · exact Or.inl ⟨a, h1, hp⟩
    · rcases List.mem_singleton.mp h1 with rfl
      exact Or.inr hp
  · rintro (⟨a, ha, hp⟩ | hp)
    · exact ⟨a, List.mem_append.mpr (Or.inl ha), hp⟩
    · exact ⟨rec, List.mem_append.mpr (Or.inr (List.mem_singleton.mpr rfl)), hp⟩

lemma stopCond_append {mem : List ActionRec} {rec : ActionRec} {v : Nat}
    (h : v < rec.step) : stopCond (mem ++ [rec]) v ↔ stopCond mem v := by
  unfold stopCond
  constructor
  · rintro ⟨h2, ⟨a, ha, hstep, hp⟩, ⟨b, hb, hbstep, hq⟩⟩
    refine ⟨h2, ⟨a, ?_, hstep, hp⟩, ⟨b, ?_, hbstep, hq⟩⟩
    · rcases List.mem_append.mp ha with h1 | h1
      · exact h1
      · rcases List.mem_singleton.mp h1 with rfl; omega
    · rcases List.mem_append.mp hb with h1 | h1
      · exact h1
      · rcases List.mem_singleton.mp h1 with rfl; omega
  · rintro ⟨h2, ⟨a, ha, hstep, hp⟩, ⟨b, hb, hbstep, hq⟩⟩
    exact ⟨h2, ⟨a, List.mem_append.mpr (Or.inl ha), hstep, hp⟩,
      ⟨b, List.mem_append.mpr (Or.inl hb), hbstep, hq⟩⟩

/-- If both required successes exist in `mem` (without step bound), then
`stopCond` holds at any `k ≥ 2` bounding all steps; conversely a
`stopCond` yields both successes.  Helper for relating `stopCond` to the
loop flags. -/
lemma stopCond_exists {mem : List ActionRec} {k : Nat} (h : stopCond mem k) :
    (∃ a ∈ mem, a.tool = "CRM_Database_Query" ∧ a.result.success = true) ∧
    (∃ a ∈ mem, a.tool = "CRM_Reasoning" ∧ a.result.success = true) ∧ 2 ≤ k := by
  obtain ⟨h2, ⟨a, ha, _, hp⟩, ⟨b, hb, _, hq⟩⟩ := h
  exact ⟨⟨a, ha, hp⟩, ⟨b, hb, hq⟩, h2⟩

/-- In a single-record memory the two successes cannot coexist. -/
lemma stopCond_singleton {rec : ActionRec} {k : Nat} :
    ¬ stopCond [rec] k := by
  rintro ⟨_, ⟨a, ha, _, hatool, _⟩, ⟨b, hb, _, hbtool, _⟩⟩
  rcases List.mem_singleton.mp ha with rfl
  rcases List.mem_singleton.mp hb with rfl
  rw [hatool] at hbtool
  exact absurd hbtool (by decide)

lemma no_stop_of_no_both {mem : List ActionRec}
    (h : ¬ ((∃ a ∈ mem, a.tool = "CRM_Database_Query" ∧ a.result.success = true) ∧
            (∃ a ∈ mem, a.tool = "CRM_Reasoning" ∧ a.result.success = true))) :
    ∀ k, ¬ stopCond mem k := fun _ hk =>
  h ⟨(stopCond_exists hk).1, (stopCond_exists hk).2.1⟩

lemma stopCond_of_both {mem : List ActionRec} (hm : memOK mem)
    (h1 : ∃ a ∈ mem, a.tool = "CRM_Database_Query" ∧ a.result.success = true)
    (h2 : ∃ a ∈ mem, a.tool = "CRM_Reasoning" ∧ a.result.success = true) :
    stopCond mem (max 2 mem.length) := by
  obtain ⟨a, ha, hp⟩ := h1
  obtain ⟨b, hb, hq⟩ := h2
  refine ⟨le_max_left _ _,
    ⟨a, ha, le_trans (memOK_step_le hm a ha).2 (le_max_right _ _), hp⟩,
    ⟨b, hb, le_trans (memOK_step_le hm b hb).2 (le_max_right _ _), hq⟩⟩

lemma noToolBranch_spec (env : SolveEnv) (q : String) (st : LoopSt) (k : Nat)
    (sub_goal : String) (tool_name : Option String) (rsteps : List RStep)
    (h : LoopInv st) (hk : k = st.step_count + 1)
    (hvs : verificationSteps rsteps = verificationSteps st.rsteps) :
    (∀ r, noToolBranch env q st k sub_goal tool_name rsteps = .ret r →
      r.needs_clarification = true ∧ r.success = true ∧ r.steps = k ∧
      r.memory = st.mem ∧
      verificationSteps r.reasoning_steps = verificationSteps st.rsteps) ∧
    (∀ st', noToolBranch env q st k sub_goal tool_name rsteps = .brk st' → False) ∧
    (∀ st', noToolBranch env q st k sub_goal tool_name rsteps = .cont st' →
      LoopInv st' ∧ st'.step_count = k ∧
      st'.consecutive_no_tool = st.consecutive_no_tool + 1 ∧
      st'.rsteps = rsteps ∧
      (∃ rec, st'.mem = st.mem ++ [rec] ∧ rec.step = k ∧ rec.result.success = false ∧
        rec.command = "" ∧ st'.final_result = some rec.result)) := by
  refine ⟨?_, ?_, ?_⟩
  · intro r hx
    simp only [noToolBranch] at hx
    split at hx
    · split at hx
      · exact absurd hx (by intro hc; cases hc)
      · cases hx
        refine ⟨rfl, rfl, rfl, rfl, ?_⟩
        simp only [verificationSteps_append, hvs]
        simp [verificationSteps]
    · exact absurd hx (by intro hc; cases hc)
  · intro st' hx
    simp only [noToolBranch] at hx
    split at hx
    · split at hx
      · exact absurd hx (by intro hc; cases hc)
      · exact absurd hx (by intro hc; cases hc)
    · exact absurd hx (by intro hc; cases hc)
  · intro st' hx
    simp only [noToolBranch] at hx
    split at hx
    · split at hx
      · exact absurd hx (by intro hc; cases hc)
      · exact absurd hx (by intro hc; cases hc)
    · cases hx
      set failRes : PyResult :=
        { success := false, error := some ("Unknown tool: " ++ pyStrOptTool tool_name) } with hfail
      set rec : ActionRec :=
        { step := k, tool := pyStrOptTool tool_name, sub_goal := sub_goal,
          command := "", result := failRes } with hrec
      have hsucc : rec.result.success = false := rfl
      have hcnt : st.mem.length = st.step_count := h.base.count
      have hmem' : memOK (st.mem ++ [rec]) :=
        memOK_append h.base.mem_ok (by simp [hrec, hcnt, hk])
      have hboth : ∀ j, ¬ stopCond (st.mem ++ [rec]) j := by
        apply no_stop_of_no_both
        rintro ⟨h1, h2⟩
        rw [exists_succ_append] at h1 h2
        rcases h1 with h1 | h1
        · rcases h2 with h2 | h2
          · exact h.no_stop _ (stopCond_of_both h.base.mem_ok h1 h2)
          · rw [hsucc] at h2; cases h2.2
        · rw [hsucc] at h1; cases h1.2
      refine ⟨⟨⟨?_, hmem', ?_, ?_, ?_, ?_, ?_⟩, ?_, hboth⟩, rfl, rfl, rfl, rec, rfl, rfl, hsucc, rfl, rfl⟩
      · show (st.mem ++ [rec]).length = k
        simp only [List.length_append, List.length_singleton]
        omega
      · show (match (st.mem ++ [rec]).getLast? with
          | some a => some failRes = some a.result
          | none => some failRes = none)
        rw [List.getLast?_concat]
      · intro a ha
        rcases List.mem_append.mp ha with h1 | h1
        · exact h.base.data_none a h1
        · rcases List.mem_singleton.mp h1 with rfl; rfl
      · intro v hv
        have hv' : v ∈ verificationSteps rsteps := hv
        rw [hvs] at hv'
        have hle := h.base.verif_le v hv'
        show v ≤ k
        omega
      · intro v hv
        have hv' : v ∈ verificationSteps rsteps := hv
        rw [hvs] at hv'
        have hle := h.base.verif_le v hv'
        show ¬ stopCond (st.mem ++ [rec]) v
        rw [stopCond_append (show v < rec.step by simp only [hrec]; omega)]
        exact h.base.verif_ok v hv'
      · intro j hj
        exact absurd hj (hboth j)
      · constructor
        · show st.has_fetched_data = true ↔
            ∃ a ∈ st.mem ++ [rec], a.tool = "CRM_Database_Query" ∧ a.result.success = true
          rw [exists_succ_append]
          constructor
          · rintro hf
            rcases (h.flags.1.mp hf) with ⟨a, ha, hp⟩
            exact Or.inl ⟨a, ha, hp⟩
          · rintro (h1 | h1)
            · exact h.flags.1.mpr h1
            · rw [hsucc] at h1; cases h1.2
        · show st.has_done_reasoning = true ↔
            ∃ a ∈ st.mem ++ [rec], a.tool = "CRM_Reasoning" ∧ a.result.success = true
          rw [exists_succ_append]
          constructor
          · rintro hf
            rcases (h.flags.2.mp hf) with ⟨a, ha, hp⟩
            exact Or.inl ⟨a, ha, hp⟩
          · rintro (h1 | h1)
            · exact h.flags.2.mpr h1
            · rw [hsucc] at h1; cases h1.2

lemma flag_append_iff {mem : List ActionRec} {flag : Bool} {tool : String} (rec : ActionRec)
    (hiff : flag = true ↔ ∃ a ∈ mem, a.tool = tool ∧ a.result.success = true) :
    (flag || (rec.tool = tool && rec.result.success)) = true ↔
      ∃ a ∈ mem ++ [rec], a.tool = tool ∧ a.result.success = true := by
  rw [exists_succ_append]
  simp only [Bool.or_eq_true, Bool.and_eq_true, decide_eq_true_eq, hiff]

lemma post_no_stop {st : LoopSt} (h : LoopInv st) {k : Nat} (rec : ActionRec)
    (hk : k = st.step_count + 1)
    (hnot : ¬ ((st.has_fetched_data ||
          (rec.tool = "CRM_Database_Query" && rec.result.success)) = true ∧
        (st.has_done_reasoning ||
          (rec.tool = "CRM_Reasoning" && rec.result.success)) = true ∧ 2 ≤ k)) :
    ∀ j, ¬ stopCond (st.mem ++ [rec]) j := by
  intro j hj
  have hdb := (stopCond_exists hj).1
  have hrs := (stopCond_exists hj).2.1
  have hf' := (flag_append_iff rec h.flags.1).mpr hdb
  have hr' := (flag_append_iff rec h.flags.2).mpr hrs
  by_cases h2 : 2 ≤ k
  · exact hnot ⟨hf', hr', h2⟩
  · have hk1 : st.step_count = 0 := by omega
    have hnil : st.mem = [] := List.length_eq_zero.mp (by rw [h.base.count, hk1])
    rw [hnil] at hj
    exact stopCond_singleton (by simpa using hj)

lemma post_stop_imm {st : LoopSt} (h : LoopInv st) {k : Nat} (rec : ActionRec)
    (hk : k = st.step_count + 1) (hstep : rec.step = k) :
    ∀ j, stopCond (st.mem ++ [rec]) j → ∀ a ∈ st.mem ++ [rec], a.step ≤ j := by
  intro j hj a ha
  by_cases hjk : k ≤ j
  · have hmo : memOK (st.mem ++ [rec]) :=
      memOK_append h.base.mem_ok (by rw [hstep, h.base.count]; exact hk)
    have hle := (memOK_step_le hmo a ha).2
    simp only [List.length_append, List.length_singleton, h.base.count] at hle
    omega
  · have hmem : stopCond st.mem j := (stopCond_append (by omega)).mp hj
    exact absurd hmem (h.no_stop j)

lemma post_verif_le {st : LoopSt} (h : LoopInv st) {k : Nat} (hk : k = st.step_count + 1)
    {rsteps0 : List RStep} (hvs : verificationSteps rsteps0 = verificationSteps st.rsteps) :
    ∀ v ∈ verificationSteps rsteps0, v ≤ k ∧ v < k := by
  intro v hv
  rw [hvs] at hv
  have := h.base.verif_le v hv
  omega

lemma post_verif_ok {st : LoopSt} (h : LoopInv st) {k : Nat} (rec : ActionRec)
    (hk : k = st.step_count + 1) (hstep : rec.step = k)
    {rsteps0 : List RStep} (hvs : verificationSteps rsteps0 = verificationSteps st.rsteps) :
    ∀ v ∈ verificationSteps rsteps0, ¬ stopCond (st.mem ++ [rec]) v := by
  intro v hv
  have hlt := (post_verif_le h hk hvs v hv).2
  rw [stopCond_append (by omega)]
  rw [hvs] at hv
  exact h.base.verif_ok v hv

lemma final_ok_concat {mem : List ActionRec} {rec : ActionRec} {fr : Option PyResult}
    (hfr : fr = some rec.result) :
    (match (mem ++ [rec]).getLast? with
     | some a => fr = some a.result
     | none => fr = none) := by
  rw [List.getLast?_concat]
  exact hfr

lemma verifSteps_cg_exec (rsteps0 : List RStep) (k : Nat) (a b c : String) (su : Bool)
    (rc : Nat) (er : Option String) :
    verificationSteps (rsteps0 ++ [RStep.commandGen k a b c] ++
      [RStep.execution k su rc er]) = verificationSteps rsteps0 := by
  rw [verificationSteps_append, verificationSteps_append]
  simp [verificationSteps]

lemma verifSteps_cg_exec_ver (rsteps0 : List RStep) (k : Nat) (a b c : String) (su : Bool)
    (rc : Nat) (er : Option String) (va vb : String) :
    verificationSteps (rsteps0 ++ [RStep.commandGen k a b c] ++
      [RStep.execution k su rc er] ++ [RStep.verification k va vb]) =
      verificationSteps rsteps0 ++ [k] := by
  rw [verificationSteps_append, verificationSteps_append, verificationSteps_append]
  simp [verificationSteps]

lemma toolBranchExec_spec (env : SolveEnv) (st : LoopSt) (k : Nat) (sub_goal t : String)
    (rsteps0 : List RStep) (ec : String × String × String) (result : PyResult)
    (h : LoopInv st) (hk : k = st.step_count + 1)
    (hvs : verificationSteps rsteps0 = verificationSteps st.rsteps)
    (hdata : result.data = none) :
    (∀ r, toolBranchExec env st k sub_goal t rsteps0 ec result ≠ .ret r) ∧
    (∀ e, toolBranchExec env st k sub_goal t rsteps0 ec result ≠ .exn e) ∧
    (∀ st', toolBranchExec env st k sub_goal t rsteps0 ec result = .brk st' →
      BaseInv st' ∧ st'.step_count = k ∧ st'.consecutive_no_tool = 0) ∧
    (∀ st', toolBranchExec env st k sub_goal t rsteps0 ec result = .cont st' →
      LoopInv st' ∧ st'.step_count = k ∧ st'.consecutive_no_tool = 0) := by
  have hcnt := h.base.count
  have hmo : ∀ rec : ActionRec, rec.step = k → memOK (st.mem ++ [rec]) := fun rec hr =>
    memOK_append h.base.mem_ok (by rw [hr, hcnt]; exact hk)
  have hlen : ∀ rec : ActionRec, (st.mem ++ [rec]).length = k := by
    intro rec
    simp only [List.length_append, List.length_singleton, hcnt]
    omega
  have hdn : ∀ rec : ActionRec, rec.result.data = none →
      ∀ a ∈ st.mem ++ [rec], a.result.data = none := by
    intro rec hrd a ha
    rcases List.mem_append.mp ha with h1 | h1
    · exact h.base.data_none a h1
    · rcases List.mem_singleton.mp h1 with rfl; exact hrd
  refine ⟨?_, ?_, ?_, ?_⟩
  · intro r hx
    simp only [toolBranchExec] at hx
    split at hx
    · cases hx
    · split at hx
      · cases hx
      · split at hx
        · cases hx
        · cases hx
  · intro e hx
    simp only [toolBranchExec] at hx
    split at hx
    · cases hx
    · split at hx
      · cases hx
      · split at hx
        · cases hx
        · cases hx
  · intro st' hx
    simp only [toolBranchExec] at hx
    split at hx
    · -- forced stop
      cases hx
      refine ⟨⟨hlen _, hmo _ rfl, final_ok_concat rfl, hdn _ hdata, ?_, ?_, ?_⟩, rfl, rfl⟩
      · intro v hv
        rw [verifSteps_cg_exec] at hv
        exact (post_verif_le h hk hvs v hv).1
      · intro v hv
        rw [verifSteps_cg_exec] at hv
        exact post_verif_ok h _ hk rfl hvs v hv
      · exact post_stop_imm h _ hk rfl
    · split at hx
      · -- oscillation stop: the forced-stop condition failed
        rename_i hnot _
        cases hx
        have hns := post_no_stop h
          { step := k, tool := t, sub_goal := sub_goal, command := ec.2.2, result := result }
          hk hnot
        refine ⟨⟨hlen _, hmo _ rfl, final_ok_concat rfl, hdn _ hdata, ?_, ?_,
          fun j hj => absurd hj (hns j)⟩, rfl, rfl⟩
        · intro v hv
          rw [verifSteps_cg_exec] at hv
          exact (post_verif_le h hk hvs v hv).1
        · intro v hv
          rw [verifSteps_cg_exec] at hv
          exact post_verif_ok h _ hk rfl hvs v hv
      · -- verifier verdict
        split at hx
        · -- STOP: a verification entry at step k is recorded
          rename_i hnot hnosc _
          cases hx
          have hns := post_no_stop h
            { step := k, tool := t, sub_goal := sub_goal, command := ec.2.2, result := result }
            hk hnot
          refine ⟨⟨hlen _, hmo _ rfl, final_ok_concat rfl, hdn _ hdata, ?_, ?_,
            fun j hj => absurd hj (hns j)⟩, rfl, rfl⟩
          · intro v hv
            rw [verifSteps_cg_exec_ver] at hv
            rcases List.mem_append.mp hv with hv' | hv'
            · exact (post_verif_le h hk hvs v hv').1
            · rcases List.mem_singleton.mp hv' with rfl; exact le_rfl
          · intro v hv
            rw [verifSteps_cg_exec_ver] at hv
            rcases List.mem_append.mp hv with hv' | hv'
            · exact post_verif_ok h _ hk rfl hvs v hv'
            · rcases List.mem_singleton.mp hv' with rfl; exact hns v
        · cases hx
  · intro st' hx
    simp only [toolBranchExec] at hx
    split at hx
    · cases hx
    · split at hx
      · cases hx
      · split at hx
        · cases hx
        · -- verifier CONTINUE
          rename_i hnot hnosc _
          cases hx
          have hns := post_no_stop h
            { step := k, tool := t, sub_goal := sub_goal, command := ec.2.2, result := result }
            hk hnot
          refine ⟨⟨⟨hlen _, hmo _ rfl, final_ok_concat rfl, hdn _ hdata, ?_, ?_,
            fun j hj => absurd hj (hns j)⟩, ⟨?_, ?_⟩, hns⟩, rfl, rfl⟩
          · intro v hv
            rw [verifSteps_cg_exec_ver] at hv
            rcases List.mem_append.mp hv with hv' | hv'
            · exact (post_verif_le h hk hvs v hv').1
            · rcases List.mem_singleton.mp hv' with rfl; exact le_rfl
          · intro v hv
            rw [verifSteps_cg_exec_ver] at hv
            rcases List.mem_append.mp hv with hv' | hv'
            · exact post_verif_ok h _ hk rfl hvs v hv'
            · rcases List.mem_singleton.mp hv' with rfl; exact hns v
          · exact flag_append_iff
              { step := k, tool := t, sub_goal := sub_goal, command := ec.2.2, result := result }
              h.flags.1
          · exact flag_append_iff
              { step := k, tool := t, sub_goal := sub_goal, command := ec.2.2, result := result }
              h.flags.2

lemma loopIter_spec (env : SolveEnv) (q : String) (st : LoopSt) (h : LoopInv st) :
    (∀ r, loopIter env q st = .ret r →
      r.needs_clarification = true ∧ r.success = true ∧ r.steps = st.step_count + 1 ∧
      r.memory = st.mem ∧
      verificationSteps r.reasoning_steps = verificationSteps st.rsteps) ∧
    (∀ st', loopIter env q st = .brk st' →
      BaseInv st' ∧ st'.step_count = st.step_count + 1) ∧
    (∀ st', loopIter env q st = .cont st' →
      LoopInv st' ∧ st'.step_count = st.step_count + 1) := by
  refine ⟨?_, ?_, ?_⟩
  · intro r hx
    simp only [loopIter] at hx
    split at hx
    · exact (noToolBranch_spec env q st _ _ _ _ h rfl
        (by rw [verificationSteps_append]; simp [verificationSteps])).1 r hx
    · exact absurd hx ((toolBranchExec_spec env st _ _ _ _ _ _ h rfl
        (by rw [verificationSteps_append]; simp [verificationSteps])
        (execute_tool_data_none _ _ _ _)).1 r)
  · intro st' hx
    simp only [loopIter] at hx
    split at hx
    · exact absurd True.intro
        (fun _ => (noToolBranch_spec env q st _ _ _ _ h rfl
          (by rw [verificationSteps_append]; simp [verificationSteps])).2.1 st' hx)
    · have hspec := (toolBranchExec_spec env st _ _ _ _ _ _ h rfl
        (by rw [verificationSteps_append]; simp [verificationSteps])
        (execute_tool_data_none _ _ _ _)).2.2.1 st' hx
      exact ⟨hspec.1, hspec.2.1⟩
  · intro st' hx
    simp only [loopIter] at hx
    split at hx
    · have hspec := (noToolBranch_spec env q st _ _ _ _ h rfl
        (by rw [verificationSteps_append]; simp [verificationSteps])).2.2 st' hx
      exact ⟨hspec.1, hspec.2.1⟩
    · have hspec := (toolBranchExec_spec env st _ _ _ _ _ _ h rfl
        (by rw [verificationSteps_append]; simp [verificationSteps])
        (execute_tool_data_none _ _ _ _)).2.2.2 st' hx
      exact ⟨hspec.1, hspec.2.1⟩

lemma loopRun_spec (env : SolveEnv) (q : String) : ∀ (fuel : Nat) (st : LoopSt), LoopInv st →
    (∀ r, loopRun env q fuel st = .early r →
      r.needs_clarification = true ∧ r.success = true ∧ r.steps ≤ st.step_count + fuel ∧
      memOK r.memory ∧ (∀ a ∈ r.memory, a.result.data = none) ∧
      (∀ v ∈ verificationSteps r.reasoning_steps, ¬ stopCond r.memory v) ∧
      (∀ j, stopCond r.memory j → ∀ a ∈ r.memory, a.step ≤ j)) ∧
    (∀ st', loopRun env q fuel st = .done st' →
      BaseInv st' ∧ st'.step_count ≤ st.step_count + fuel) := by
  intro fuel
  induction fuel with
  | zero =>
    intro st h
    constructor
    · intro r hx
      simp only [loopRun] at hx
      cases hx
    · intro st' hx
      simp only [loopRun] at hx
      cases hx
      exact ⟨h.base, by omega⟩
  | succ fuel ih =>
    intro st h
    have hiter := loopIter_spec env q st h
    constructor
    · intro r hx
      simp only [loopRun] at hx
      split at hx
      · split at hx
        · rename_i heq
          cases hx
          obtain ⟨h1, h2, h3, h4, h5⟩ := hiter.1 _ heq
          refine ⟨h1, h2, by omega, ?_, ?_, ?_, ?_⟩
          · rw [h4]; exact h.base.mem_ok
          · rw [h4]; exact h.base.data_none
          · intro v hv
            rw [h5] at hv
            rw [h4]
            exact h.base.verif_ok v hv
          · intro j hj
            rw [h4] at hj
            exact absurd hj (h.no_stop j)
        · cases hx
        · cases hx
        · rename_i heq
          obtain ⟨hinv, hsc⟩ := hiter.2.2 _ heq
          have := (ih _ hinv).1 r hx
          exact ⟨this.1, this.2.1, by omega, this.2.2.2⟩
      · cases hx
    · intro st' hx
      simp only [loopRun] at hx
      split at hx
      · split at hx
        · cases hx
        · cases hx
        · rename_i heq
          cases hx
          obtain ⟨hb, hsc⟩ := hiter.2.1 _ heq
          exact ⟨hb, by omega⟩
        · rename_i heq
          obtain ⟨hinv, hsc⟩ := hiter.2.2 _ heq
          have := (ih _ hinv).2 st' hx
          exact ⟨this.1, by omega⟩
      · cases hx
        exact ⟨h.base, by omega⟩

lemma finalize_spec (env : SolveEnv) (q : String) (st : LoopSt) (hb : BaseInv st) :
    (finalize env q st).needs_clarification = false ∧
    (finalize env q st).steps = st.step_count ∧
    (finalize env q st).memory = st.mem ∧
    verificationSteps (finalize env q st).reasoning_steps = verificationSteps st.rsteps ∧
    (finalize env q st).success =
      (match st.mem.getLast? with
       | some a => a.result.success
       | none => false) := by
  refine ⟨rfl, rfl, rfl, ?_, ?_⟩
  · show verificationSteps (st.rsteps ++ [RStep.finalOutput (st.step_count + 1) _ _]) =
      verificationSteps st.rsteps
    rw [verificationSteps_append]
    simp [verificationSteps]
  · show (match st.final_result with | some r => r.success | none => false) = _
    have hfin := hb.final_ok
    match hl : st.mem.getLast? with
    | some a =>
      rw [hl] at hfin
      rw [hfin]
    | none =>
      rw [hl] at hfin
      rw [hfin]

/-- Everything the trace-shaped claims need about a returned
`SolveResult`. -/
lemma solve_spec (cfg : SolverConfig) (env : SolveEnv) (query : String)
    (prevMemory : List ActionRec) (r : SolveResult)
    (h : solve cfg env query prevMemory = .ok r) :
    r.steps ≤ max cfg.max_steps 1 ∧
    (r.needs_clarification = false → r.steps ≤ cfg.max_steps) ∧
    memOK r.memory ∧
    (∀ a ∈ r.memory, a.result.data = none) ∧
    (∀ v ∈ verificationSteps r.reasoning_steps, ¬ stopCond r.memory v) ∧
    (∀ j, stopCond r.memory j → ∀ a ∈ r.memory, a.step ≤ j) ∧
    (r.needs_clarification = false →
      r.success = (match r.memory.getLast? with
        | some a => a.result.success
        | none => false)) := by
  have hinv : LoopInv (initLoopSt (queryAnalysis env query)) := by
    refine ⟨⟨rfl, rfl, rfl, ?_, ?_, ?_, ?_⟩, ⟨?_, ?_⟩, ?_⟩
    · intro a ha; cases ha
    · intro v hv; cases hv
    · intro v hv; cases hv
    · rintro j ⟨_, ⟨a, ha, _⟩, _⟩; cases ha
    · constructor
      · intro hc; cases hc
      · rintro ⟨a, ha, _⟩; cases ha
    · constructor
      · intro hc; cases hc
      · rintro ⟨a, ha, _⟩; cases ha
    · rintro j ⟨_, ⟨a, ha, _⟩, _⟩; cases ha
  simp only [solve] at h
  split at h
  · cases h
  · -- ambiguity short-circuit
    cases h
    refine ⟨?_, ?_, rfl, ?_, ?_, ?_, ?_⟩
    · show (1 : Nat) ≤ max cfg.max_steps 1
      exact le_max_right _ _
    · intro hc; exact absurd hc (by simp)
    · intro a ha; cases ha
    · intro v hv; cases hv
    · rintro j ⟨_, ⟨a, ha, _⟩, _⟩; cases ha
    · intro hc; exact absurd hc (by simp)
  · -- main loop
    split at h
    · cases h
    · -- early return (selection-failure escalation)
      rename_i heq
      cases h
      obtain ⟨h1, h2, h3, h4, h5, h6, h7⟩ :=
        (loopRun_spec env query cfg.max_steps _ hinv).1 _ heq
      refine ⟨?_, ?_, h4, h5, h6, h7, ?_⟩
      · simp only [initLoopSt] at h3
        omega
      · intro hc; rw [h1] at hc; cases hc
      · intro hc; rw [h1] at hc; cases hc
    · -- normal exit through finalize
      rename_i heq
      cases h
      obtain ⟨hb, hsc⟩ := (loopRun_spec env query cfg.max_steps _ hinv).2 _ heq
      obtain ⟨f1, f2, f3, f4, f5⟩ := finalize_spec env query _ hb
      refine ⟨?_, ?_, ?_, ?_, ?_, ?_, ?_⟩
      · rw [f2]
        simp only [initLoopSt] at hsc
        omega
      · intro _
        rw [f2]
        simp only [initLoopSt] at hsc
        omega
      · rw [f3]; exact hb.mem_ok
      · rw [f3]; exact hb.data_none
      · intro v hv
        rw [f4] at hv
        rw [f3]
        exact hb.verif_ok v hv
      · rw [f3]; exact hb.stop_imm
      · intro _
        rw [f5, f3]

/-! ## Concrete collaborator fixtures

Closed environments used to exercise `solve` and `loopIter` on concrete
runs.  Each models one behaviour of the generation capability, the
record store and the clock. -/

/-- A one-row record store answer. -/
def fixtureRows : List Row :=
  [{ total := 10, converted := 5, won := 2, closed := 4, payload := "r1" }]

/-- Tools whose collaborators always answer. -/
def toolEnvOk : ToolEnv := { execQuery := fun _ => .ok fixtureRows, llm := fun p => .ok p }

/-- An iteration whose planner selects the database tool and whose
verifier says CONTINUE. -/
def iterDb : IterEnv :=
  { planOut := .ok "CONTEXT: c\nSUB_GOAL: g\nTOOL: CRM_Database_Query",
    cmdOut := .ok "COMMAND: SELECT * FROM leads",
    tool := toolEnvOk, verifyOut := .ok "CONCLUSION: CONTINUE" }

/-- An iteration whose planner selects the reasoning tool with a
well-formed command. -/
def iterReason : IterEnv :=
  { planOut := .ok "CONTEXT: c\nSUB_GOAL: g\nTOOL: CRM_Reasoning",
    cmdOut := .ok "COMMAND: analyze it",
    tool := toolEnvOk, verifyOut := .ok "CONCLUSION: CONTINUE" }

/-- An iteration whose planning text names no tool at all. -/
def iterNoTool : IterEnv :=
  { planOut := .ok "no tool line here",
    cmdOut := .ok "COMMAND: SELECT 1",
    tool := toolEnvOk, verifyOut := .ok "CONCLUSION: CONTINUE" }

/-- An iteration whose planner selects the reasoning tool but whose
command is empty, so the execution fails. -/
def iterReasonFail : IterEnv :=
  { planOut := .ok "TOOL: CRM_Reasoning",
    cmdOut := .ok "COMMAND:",
    tool := toolEnvOk, verifyOut := .ok "CONCLUSION: CONTINUE" }

/-- Database success at step 1, reasoning success from step 2 on: the
forced-stop situation. -/
def envBase : SolveEnv :=
  { analyzeOut := .ok "analysis", clarifyAmbiguous := .ok "please clarify",
    clarifyFallback := fun _ => .ok "fallback clar",
    iter := fun k => if k = 1 then iterDb else iterReason,
    timeOk := fun _ => true, finalOut := .ok "final", directOut := .ok "direct" }

/-- Every iteration fails tool selection. -/
def envNoTool : SolveEnv := { envBase with iter := fun _ => iterNoTool }

/-- Every iteration fails tool selection and the escalation clarifying
call raises. -/
def envNoToolRaise : SolveEnv :=
  { envNoTool with clarifyFallback := fun _ => .error "boom" }

/-- Database success on odd steps, failing reasoning on even steps: the
oscillation situation. -/
def envOsc : SolveEnv :=
  { envBase with iter := fun k => if k % 2 = 1 then iterDb else iterReasonFail }

/-- The result record of a run already known to return normally (the
error arm is never reached on such runs). -/
def resOf : Except String SolveResult → SolveResult
  | .ok r => r
  | .error _ =>
    { success := false, query := "", summary := "", detailed_solution := "",
      results := [], result_count := 0, sql_query := none, reasoning_steps := [],
      memory := [], steps := 0, needs_clarification := false }

/-! ## Tool-selection failure (`tool_name is None or tool_name not in self.tools`) -/

/-- Tool selection fails at step `k`: the planner's TOOL value for that
step resolves to `None` or to a name outside the registry. -/
def selectionFails (env : SolveEnv) (k : Nat) : Bool :=
  match (plannedStep env k).2.2 with
  | none => true
  | some t => !(tools_available.contains t)

lemma selectionFails_eq (env : SolveEnv) (k : Nat) :
    selectionFails env k =
      !(match (plannedStep env k).2.2 with
        | some t => tools_available.contains t
        | none => false) := by
  cases hp : (plannedStep env k).2.2 <;> simp [selectionFails, hp]

/-- Both exits of the executing branch carry a reset
consecutive-failure counter. -/
lemma toolBranchExec_consec (env : SolveEnv) (st : LoopSt) (k : Nat)
    (sub_goal t : String) (rsteps0 : List RStep) (ec : String × String × String)
    (result : PyResult) :
    ∀ st', (toolBranchExec env st k sub_goal t rsteps0 ec result = .cont st' ∨
            toolBranchExec env st k sub_goal t rsteps0 ec result = .brk st') →
      st'.consecutive_no_tool = 0 := by
  intro st' hor
  simp only [toolBranchExec] at hor
  split at hor
  · rcases hor with h | h
    · cases h
    · cases h; rfl
  · split at hor
    · rcases hor with h | h
      · cases h
      · cases h; rfl
    · split at hor
      · rcases hor with h | h
        · cases h
        · cases h; rfl
      · rcases hor with h | h
        · cases h; rfl
        · cases h

/-- C4: amended tool-selection failure handling.  When selection fails
below the threshold, the body records a failed action and continues with
the counter incremented; at the threshold the body escalates, returning
a clarifying response with needs_clarification and success set whenever
the unguarded clarifying call returns, and propagating the exception
when it raises (so solve is NOT raise-free here, contrary to the spec);
any successful selection resets the counter to zero. -/
theorem claim_C4_selection_failures (env : SolveEnv) (q : String) (st : LoopSt) :
    (selectionFails env (st.step_count + 1) = true →
      (st.consecutive_no_tool + 1 < max_no_tool_attempts →
        ∃ st', loopIter env q st = .cont st' ∧
          st'.consecutive_no_tool = st.consecutive_no_tool + 1 ∧
          ∃ rec, st'.mem = st.mem ++ [rec] ∧ rec.step = st.step_count + 1 ∧
            rec.result.success = false) ∧
      (max_no_tool_attempts ≤ st.consecutive_no_tool + 1 →
        (∀ fb, env.clarifyFallback (st.step_count + 1) = .ok fb →
          ∃ r, loopIter env q st = .ret r ∧
            r.needs_clarification = true ∧ r.success = true) ∧
        (∀ e, env.clarifyFallback (st.step_count + 1) = .error e →
          loopIter env q st = .exn e))) ∧
    (selectionFails env (st.step_count + 1) = false →
      ∀ st', (loopIter env q st = .cont st' ∨ loopIter env q st = .brk st') →
        st'.consecutive_no_tool = 0) := by
  have hse := selectionFails_eq env (st.step_count + 1)
  constructor
  · intro h1
    have hkn : (match (plannedStep env (st.step_count + 1)).2.2 with
        | some t => tools_available.contains t
        | none => false) = false := by
      rw [h1] at hse
      cases hm : (match (plannedStep env (st.step_count + 1)).2.2 with
          | some t => tools_available.contains t
          | none => false)
      · rfl
      · rw [hm] at hse; cases hse
    constructor
    · intro hlt
      have h2 : ¬ (max_no_tool_attempts ≤ st.consecutive_no_tool + 1) := by
        simp only [max_no_tool_attempts] at hlt ⊢; omega
      simp only [loopIter, hkn, if_pos, noToolBranch]
      rw [if_neg h2]
      exact ⟨_, rfl, rfl, _, rfl, rfl, rfl⟩
    · intro hge
      constructor
      · intro fb hfb
        simp only [loopIter, hkn, if_pos, noToolBranch]
        rw [if_pos hge, hfb]
        exact ⟨_, rfl, rfl, rfl⟩
      · intro e he
        simp only [loopIter, hkn, if_pos, noToolBranch]
        rw [if_pos hge, he]
  · intro h0 st' hor
    have hkn : (match (plannedStep env (st.step_count + 1)).2.2 with
        | some t => tools_available.contains t
        | none => false) = true := by
      rw [h0] at hse
      cases hm : (match (plannedStep env (st.step_count + 1)).2.2 with
          | some t => tools_available.contains t
          | none => false)
      · rw [hm] at hse; cases hse
      · rfl
    simp only [loopIter, hkn] at hor
    rw [if_neg (by simp)] at hor
    exact toolBranchExec_consec env st _ _ _ _ _ _ st' hor

/-- The loop state at entry, under the fixture analysis text. -/
def stSel0 : LoopSt := initLoopSt "analysis"

/-- A loop state with one selection failure already on the counter. -/
def stSel1 : LoopSt :=
  { initLoopSt "analysis" with step_count := 1, consecutive_no_tool := 1 }

/-- The state after the successful database iteration of `envBase`. -/
def contAfterDb : LoopSt :=
  match loopIter envBase "show leads" stSel0 with
  | .cont s => s
  | _ => stSel0

theorem claim_C4_witness :
    (∃ st', loopIter envNoTool "show leads" stSel0 = .cont st' ∧
      st'.consecutive_no_tool = stSel0.consecutive_no_tool + 1 ∧
      ∃ rec, st'.mem = stSel0.mem ++ [rec] ∧ rec.step = stSel0.step_count + 1 ∧
        rec.result.success = false) ∧
    (∃ r, loopIter envNoTool "show leads" stSel1 = .ret r ∧
      r.needs_clarification = true ∧ r.success = true) ∧
    loopIter envNoToolRaise "show leads" stSel1 = .exn "boom" ∧
    contAfterDb.consecutive_no_tool = 0 :=
  ⟨((claim_C4_selection_failures envNoTool "show leads" stSel0).1 (by decide)).1 (by decide),
   (((claim_C4_selection_failures envNoTool "show leads" stSel1).1 (by decide)).2
      (by decide)).1 "fallback clar" rfl,
   (((claim_C4_selection_failures envNoToolRaise "show leads" stSel1).1 (by decide)).2
      (by decide)).2 "boom" rfl,
   (claim_C4_selection_failures envBase "show leads" stSel0).2 (by decide)
      contAfterDb (Or.inl (by rfl))⟩

/-- C4 counterexample: two consecutive selection failures make `solve`
raise (propagate an exception) when the escalation clarifying call
raises, refuting the never-raising part of the claim. -/
theorem claim_C4_counterexample :
    selectionFails envNoToolRaise 1 = true ∧ selectionFails envNoToolRaise 2 = true ∧
    solve {} envNoToolRaise "show leads" [] = .error "boom" :=
  ⟨by decide, by decide, by rfl⟩

/-- C1: amended step bound.  Every normally returned result has at most
`max (max_steps) 1` steps, and at most `max_steps` steps unless it is a
clarification result; the ambiguity short-circuit reports 1 step even
when `max_steps` is smaller (see the counterexample). -/
theorem claim_C1_step_bound (cfg : SolverConfig) (env : SolveEnv) (query : String)
    (prevMemory : List ActionRec) (r : SolveResult)
    (h : solve cfg env query prevMemory = .ok r) :
    r.steps ≤ max cfg.max_steps 1 ∧
    (r.needs_clarification = false → r.steps ≤ cfg.max_steps) := by
  obtain ⟨h1, h2, -⟩ := solve_spec cfg env query prevMemory r h
  exact ⟨h1, h2⟩

/-- The clarification result of the ambiguous run of `envBase`. -/
def resAmb : SolveResult := resOf (solve {} envBase "huh" [])

theorem claim_C1_witness :
    resAmb.steps ≤ max ({} : SolverConfig).max_steps 1 ∧
    (resAmb.needs_clarification = false →
      resAmb.steps ≤ ({} : SolverConfig).max_steps) :=
  claim_C1_step_bound {} envBase "huh" [] resAmb (by rfl)

/-- The result of the ambiguous run of `envBase` with a zero step
budget. -/
def resAmbZero : SolveResult := resOf (solve { max_steps := 0 } envBase "huh" [])

/-- C1 counterexample: with `max_steps = 0` the ambiguity short-circuit
still reports `steps = 1`, exceeding the configured maximum. -/
theorem claim_C1_counterexample :
    solve { max_steps := 0 } envBase "huh" [] = .ok resAmbZero ∧
    ({ max_steps := 0 } : SolverConfig).max_steps < resAmbZero.steps :=
  ⟨by rfl, by decide⟩

/-- C2: the memory of every normally returned result carries step values
exactly 1..N in order (`memOK`), and the result is independent of the
memory left over from any previous invocation (it is cleared at entry). -/
theorem claim_C2_memory_steps (cfg : SolverConfig) (env : SolveEnv) (query : String)
    (prevMemory : List ActionRec) (r : SolveResult)
    (h : solve cfg env query prevMemory = .ok r) :
    memOK r.memory ∧
    solve cfg env query prevMemory = solve cfg env query [] :=
  ⟨(solve_spec cfg env query prevMemory r h).2.2.1, rfl⟩

/-- A leftover memory record from a hypothetical earlier invocation. -/
def staleRec : ActionRec :=
  { step := 99, tool := "CRM_Reasoning", sub_goal := "old", command := "old",
    result := { success := true } }

/-- The result of the all-selection-failures run of `envNoTool`. -/
def resNoTool : SolveResult := resOf (solve {} envNoTool "show leads" [staleRec])

theorem claim_C2_witness :
    memOK resNoTool.memory ∧
    solve {} envNoTool "show leads" [staleRec] = solve {} envNoTool "show leads" [] :=
  claim_C2_memory_steps {} envNoTool "show leads" [staleRec] resNoTool (by rfl)

/-- C3: forced stop.  In every normally returned result, no verifier
consultation was recorded at a step where the forced-stop condition
(both a successful database read and a successful reasoning execution
by a step of at least 2) already held of the final memory, and once the
condition holds at step j no action was recorded after j. -/
theorem claim_C3_forced_stop (cfg : SolverConfig) (env : SolveEnv) (query : String)
    (prevMemory : List ActionRec) (r : SolveResult)
    (h : solve cfg env query prevMemory = .ok r) :
    (∀ v ∈ verificationSteps r.reasoning_steps, ¬ stopCond r.memory v) ∧
    (∀ j, stopCond r.memory j → ∀ a ∈ r.memory, a.step ≤ j) := by
  obtain ⟨-, -, -, -, h5, h6, -⟩ := solve_spec cfg env query prevMemory r h
  exact ⟨h5, h6⟩

/-- The result of the forced-stop run of `envBase` (database success at
step 1, reasoning success at step 2). -/
def resForced : SolveResult := resOf (solve {} envBase "show leads" [])

theorem claim_C3_witness :
    ((∀ v ∈ verificationSteps resForced.reasoning_steps, ¬ stopCond resForced.memory v) ∧
     (∀ j, stopCond resForced.memory j → ∀ a ∈ resForced.memory, a.step ≤ j)) ∧
    stopCond resForced.memory 2 ∧
    verificationSteps resForced.reasoning_steps = [1] ∧
    resForced.steps = 2 :=
  ⟨claim_C3_forced_stop {} envBase "show leads" [] resForced (by rfl),
   by decide, by rfl, by rfl⟩

/-- C10: in every normally returned result that is not a clarification,
the success flag equals the success of the last memory record, and is
false when the loop body never recorded anything. -/
theorem claim_C10_success_from_last (cfg : SolverConfig) (env : SolveEnv)
    (query : String) (prevMemory : List ActionRec) (r : SolveResult)
    (h : solve cfg env query prevMemory = .ok r)
    (hnc : r.needs_clarification = false) :
    r.success = (match r.memory.getLast? with
      | some a => a.result.success
      | none => false) :=
  (solve_spec cfg env query prevMemory r h).2.2.2.2.2.2 hnc

/-- The result of the oscillating run of `envOsc`: successful database
reads at odd steps, failing reasoning at even steps. -/
def resOsc : SolveResult := resOf (solve {} envOsc "show leads" [])

theorem claim_C10_witness :
    (resOsc.success = (match resOsc.memory.getLast? with
      | some a => a.result.success
      | none => false)) ∧
    resOsc.success = false ∧ (∃ a ∈ resOsc.memory, a.result.success = true) :=
  ⟨claim_C10_success_from_last {} envOsc "show leads" [] resOsc (by rfl) (by rfl),
   by decide, by decide⟩

end AgentFlow
